import Mathlib

/-!
Verification development for the `bowser` HTML ingestion pipeline
(`src/lib/html`): the character-encoding registry (`character_encoding.rs`),
the UTF-8 scalar decoder, the byte-stream pre-scanner (`prescan.rs`),
the encoding-determination orchestration (`parser.rs`), and the
character-level lexer (`lexer.rs`).

Conventions of the embedding:
  - bytes are `Nat` values < 256; byte streams are `List Nat`;
  - the `IoQueue` is modelled by the byte list it delivers: `peek_nth n`
    is `l[n]?` and `next` is head/tail (peeking only fills an internal
    buffer and never changes the delivered sequence);
  - Rust panics (`assert!`, `unwrap`, `todo!`, out-of-range slicing) are
    explicit outcome constructors;
  - loops are driven by an explicit fuel parameter; a distinguished
    `fuelOut` outcome keeps fuel exhaustion separate from any behavior
    of the source program.
-/

set_option maxHeartbeats 1000000
set_option linter.unusedVariables false
set_option linter.unreachableTactic false
set_option linter.unnecessarySeqFocus false
set_option linter.unusedTactic false

/-- The closed enumeration of canonical encodings from `character_encoding.rs`. -/
inductive CharacterEncoding where
  | Utf8
  | IBM866
  | ISO8859_2
  | ISO8859_3
  | ISO8859_4
  | ISO8859_5
  | ISO8859_6
  | ISO8859_7
  | ISO8859_8
  | ISO8859_8I
  | ISO8859_10
  | ISO8859_13
  | ISO8859_14
  | ISO8859_15
  | ISO8859_16
  | KOI8R
  | KOI8U
  | Macintosh
  | Windows874
  | Windows1250
  | Windows1251
  | Windows1252
  | Windows1253
  | Windows1254
  | Windows1255
  | Windows1256
  | Windows1257
  | Windows1258
  | XMacCyrillic
  | GBK
  | GB18030
  | Big5
  | EucJp
  | ISO2022Jp
  | ShiftJIS
  | EucKr
  | Replacement
  | Utf16BE
  | Utf16LE
  | XUserDefined
deriving DecidableEq, Repr

/-- The arms of the `match` in `CharacterEncoding::from_str`, in source order:
each arm is the list of label literals on the left of `=>` together with the
encoding it maps to.  This doubles as the documented label table. -/
def labelArms : List (List String × CharacterEncoding) := [
  (["unicode-1-1-utf-8", "unicode11utf8", "unicode20utf8", "utf-8", "utf8",
    "x-unicode20utf8"], .Utf8),
  (["866", "cp866", "csibm866", "ibm866"], .IBM866),
  (["csisolatin2", "iso-8859-2", "iso-ir-101", "iso8859-2", "iso88592",
    "iso_8859-2", "iso_8859-2:1987", "l2", "latin2"], .ISO8859_2),
  (["csisolatin3", "iso-8859-3", "iso-ir-109", "iso8859-3", "iso88593",
    "iso_8859-3", "iso_8859-3:1988", "l3", "latin3"], .ISO8859_3),
  (["csisolatin4", "iso-8859-4", "iso-ir-110", "iso8859-4", "iso88594",
    "iso_8859-4", "iso_8859-4:1988", "l4", "latin4"], .ISO8859_4),
  (["csisolatincyrillic", "cyrillic", "iso-8859-5", "iso-ir-144", "iso8859-5",
    "iso88595", "iso_8859-5", "iso_8859-5:1988"], .ISO8859_5),
  (["arabic", "asmo-708", "csiso88596e", "csiso88596i", "csisolatinarabic",
    "ecma-114", "iso-8859-6", "iso-8859-6-e", "iso-8859-6-i", "iso-ir-127",
    "iso8859-6", "iso88596", "iso_8859-6", "iso_8859-6:1987"], .ISO8859_6),
  (["csisolatingreek", "ecma-118", "elot_928", "greek", "greek8", "iso-8859-7",
    "iso-ir-126", "iso8859-7", "iso88597", "iso_8859-7", "iso_8859-7:1987",
    "sun_eu_greek"], .ISO8859_7),
  (["csiso88598e", "csisolatinhebrew", "hebrew", "iso-8859-8", "iso-8859-8-e",
    "iso-ir-138", "iso8859-8", "iso88598", "iso_8859-8", "iso_8859-8:1988",
    "visual"], .ISO8859_8),
  (["csiso88598i", "iso-8859-8-i", "logical"], .ISO8859_8I),
  (["csisolatin6", "iso-8859-10", "iso-ir-157", "iso8859-10", "iso885910",
    "l6", "latin6"], .ISO8859_10),
  (["iso-8859-13", "iso8859-13", "iso885913"], .ISO8859_13),
  (["iso-8859-14", "iso8859-14", "iso885914"], .ISO8859_14),
  (["csisolatin9", "iso-8859-15", "iso8859-15", "iso885915", "iso_8859-15",
    "l9"], .ISO8859_15),
  (["iso-8859-16"], .ISO8859_16),
  (["cskoi8r", "koi", "koi8", "koi8-r", "koi8_r"], .KOI8R),
  (["koi8-ru", "koi8-u"], .KOI8U),
  (["csmacintosh", "mac", "macintosh", "x-mac-roman"], .Macintosh),
  (["dos-874", "iso-8859-11", "iso8859-11", "iso885911", "tis-620",
    "windows-874"], .Windows874),
  (["cp1250", "windows-1250", "x-cp1250"], .Windows1250),
  (["cp1251", "windows-1251", "x-cp1251"], .Windows1251),
  (["ansi_x3.4-1968", "ascii", "cp1252", "cp819", "csisolatin1", "ibm819",
    "iso-8859-1", "iso-ir-100", "iso8859-1", "iso88591", "iso_8859-1",
    "iso_8859-1:1987", "l1", "latin1", "us-ascii", "windows-1252",
    "x-cp1252"], .Windows1252),
  (["cp1253", "windows-1253", "x-cp1253"], .Windows1253),
  (["cp1254", "csisolatin5", "iso-8859-9", "iso-ir-148", "iso8859-9",
    "iso88599", "iso_8859-9", "iso_8859-9:1989", "l5", "latin5",
    "windows-1254", "x-cp1254"], .Windows1254),
  (["cp1255", "windows-1255", "x-cp1255"], .Windows1255),
  (["cp1256", "windows-1256", "x-cp1256"], .Windows1256),
  (["cp1257", "windows-1257", "x-cp1257"], .Windows1257),
  (["cp1258", "windows-1258", "x-cp1258"], .Windows1258),
  (["x-mac-cyrillic", "x-mac-ukrainian"], .XMacCyrillic),
  (["chinese", "csgb2312", "csiso58gb231280", "gb2312", "gb_2312",
    "gb_2312-80", "gbk", "iso-ir-58", "x-gbk"], .GBK),
  (["gb18030"], .GB18030),
  (["big5", "big5-hkscs", "cn-big5", "csbig5", "x-x-big5"], .Big5),
  (["cseucpkdfmtjapanese", "euc-jp", "x-euc-jp"], .EucJp),
  (["csiso2022jp", "iso-2022-jp"], .ISO2022Jp),
  (["csshiftjis", "ms932", "ms_kanji", "shift-jis", "shift_jis", "sjis",
    "windows-31j", "x-sjis"], .ShiftJIS),
  (["cseuckr", "csksc56011987", "euc-kr", "iso-ir-149", "korean",
    "ks_c_5601-1987", "ks_c_5601-1989", "ksc5601", "ksc_5601",
    "windows-949"], .EucKr),
  (["csiso2022kr", "hz-gb-2312", "iso-2022-cn", "iso-2022-cn-ext",
    "iso-2022-kr", "replacement"], .Replacement),
  (["unicodefffe", "utf-16be"], .Utf16BE),
  (["csunicode", "iso-10646-ucs-2", "ucs-2", "unicode", "unicodefeff",
    "utf-16", "utf-16le"], .Utf16LE),
  (["x-user-defined"], .XUserDefined)]

/-- Model of `CharacterEncoding::from_str`: the Rust `match` on disjoint
string literals tests the scrutinee against each arm's literals in order; a
hit returns that arm's encoding, the `_` arm returns `Err(())` (here `none`).
There is no case folding: matching is by exact string equality. -/
def CharacterEncoding.fromStr (s : String) : Option CharacterEncoding :=
  (labelArms.find? (fun arm => arm.1.contains s)).map (fun arm => arm.2)

/-- Encoding confidence, from `parser.rs`. -/
inductive EncodingConfidence where
  | Tentative
  | Certain
  | Irrelevant
deriving DecidableEq, Repr

/-- Decoding errors, from `character_encoding.rs`. -/
inductive DecodingError where
  | UnexpectedEof
  | UnexpectedSurrogate
  | UnexpectedNonCharacter
  | UnexpectedControl
  | InvalidData
deriving DecidableEq, Repr

/-- Parse errors surfaced by `HtmlParser::decode_char` (from `lib.rs` /
`parser.rs`). -/
inductive HtmlParseError where
  | SurrogateInInputStream
  | NoncharacterInInputStream
  | ControlCharacterInInputStream
deriving DecidableEq, Repr

/-- Outcome of one `Utf8Decoder::decode` call: `eof` is `Ok(None)`, `ok` is
`Ok(Some((char, bytes)))` (the scalar as a code point, the raw bytes consumed,
and the bytes left in the queue), `err` is `Err(_)` (also recording the bytes
left in the queue), and `panic` is a failure of the decoder's own
`assert!(code_point < 0x10FFFF)`. -/
inductive DecodeOutcome where
  | eof
  | ok (codePoint : Nat) (bytes : List Nat) (rest : List Nat)
  | err (e : DecodingError) (rest : List Nat)
  | panic
deriving DecidableEq, Repr

/-- Test for `u8::is_ascii_whitespace` / `char::is_ascii_whitespace` on a
code point: space, horizontal tab, line feed, form feed, carriage return. -/
def isAsciiWhitespaceNat (n : Nat) : Bool :=
  n == 0x20 || n == 0x09 || n == 0x0A || n == 0x0C || n == 0x0D

/-- The non-character code points enumerated in the `match` of
`Utf8Decoder::decode`. -/
def isNonCharacter (n : Nat) : Bool :=
  (0xFDD0 ≤ n && n ≤ 0xFDEF) ||
  n == 0xFFFE || n == 0xFFFF ||
  n == 0x1FFFE || n == 0x1FFFF ||
  n == 0x2FFFE || n == 0x2FFFF ||
  n == 0x3FFFE || n == 0x3FFFF ||
  n == 0x4FFFE || n == 0x4FFFF ||
  n == 0x5FFFE || n == 0x5FFFF ||
  n == 0x6FFFE || n == 0x6FFFF ||
  n == 0x7FFFE || n == 0x7FFFF ||
  n == 0x8FFFE || n == 0x8FFFF ||
  n == 0x9FFFE || n == 0x9FFFF ||
  n == 0xAFFFE || n == 0xAFFFF ||
  n == 0xBFFFE || n == 0xBFFFF ||
  n == 0xCFFFE || n == 0xCFFFF ||
  n == 0xDFFFE || n == 0xDFFFF ||
  n == 0xEFFFE || n == 0xEFFFF ||
  n == 0xFFFFE || n == 0xFFFFF ||
  n == 0x10FFFE || n == 0x10FFFF

/-- The `next_byte!` macro of `Utf8Decoder::decode`: pop one byte (else
`UnexpectedEof`), require a `10xxxxxx` continuation (else `InvalidData`),
and return its six payload bits. -/
def nextContinuationByte (l : List Nat) :
    Except DecodingError (Nat × Nat × List Nat) :=
  match l with
  | [] => .error .UnexpectedEof
  | c :: rest =>
    if c &&& 0b11000000 == 0b10000000 then
      .ok (c &&& 0b00111111, c, rest)
    else
      .error .InvalidData

/-- Validity checks applied to a decoded code point by `Utf8Decoder::decode`
(the `match code_point` block followed by the range `assert!`). -/
def checkCodePoint (cp : Nat) (bytes rest : List Nat) : DecodeOutcome :=
  if 0xD800 ≤ cp ∧ cp ≤ 0xDBFF then .err .UnexpectedSurrogate rest
  else if 0xDC00 ≤ cp ∧ cp ≤ 0xDFFF then .err .UnexpectedSurrogate rest
  else if isNonCharacter cp then .err .UnexpectedNonCharacter rest
  else if ((cp ≤ 0x1F) ∨ (0x7F ≤ cp ∧ cp ≤ 0x9F)) ∧ cp ≠ 0 ∧
      ¬ isAsciiWhitespaceNat cp then .err .UnexpectedControl rest
  else if cp < 0x10FFFF then .ok cp bytes rest
  else .panic

/-- Model of `Utf8Decoder::decode` over the byte sequence still in the
queue.  Masking and shifting follow the source; note that there is no
check against overlong encodings, and code points at or above `0x10FFFF`
that survive the non-character arm hit the trailing `assert!`. -/
def utf8Decode (l : List Nat) : DecodeOutcome :=
  match l with
  | [] => .eof
  | a :: rest =>
    if a &&& 0b10000000 == 0b00000000 then
      checkCodePoint a [a] rest
    else if a &&& 0b11100000 == 0b11000000 then
      match nextContinuationByte rest with
      | .error e => .err e rest.tail
      | .ok (b, rawB, rest') =>
        checkCodePoint ((a &&& 0b00011111) <<< 6 ||| b) [a, rawB] rest'
    else if a &&& 0b11110000 == 0b11100000 then
      match nextContinuationByte rest with
      | .error e => .err e rest.tail
      | .ok (b, rawB, rest') =>
        match nextContinuationByte rest' with
        | .error e => .err e rest'.tail
        | .ok (c, rawC, rest'') =>
          checkCodePoint ((a &&& 0b00001111) <<< 12 ||| b <<< 6 ||| c)
            [a, rawB, rawC] rest''
    else if a &&& 0b11111000 == 0b11110000 then
      match nextContinuationByte rest with
      | .error e => .err e rest.tail
      | .ok (b, rawB, rest') =>
        match nextContinuationByte rest' with
        | .error e => .err e rest'.tail
        | .ok (c, rawC, rest'') =>
          match nextContinuationByte rest'' with
          | .error e => .err e rest''.tail
          | .ok (d, rawD, rest''') =>
            checkCodePoint
              ((a &&& 0b00000111) <<< 18 ||| b <<< 12 ||| c <<< 6 ||| d)
              [a, rawB, rawC, rawD] rest'''
    else
      .err .InvalidData rest

/-- Outcome of `HtmlParser::decode_char`: lossy recovery substitutes
U+FFFD for `InvalidData`/`UnexpectedEof`, the three content-validity
errors surface as distinct `HtmlParseError` kinds, and valid characters
pass through. -/
inductive DecodeCharOutcome where
  | eof
  | char (codePoint : Nat)
  | parseError (e : HtmlParseError)
  | panic
deriving DecidableEq, Repr

/-- Model of `HtmlParser::decode_char` (UTF-8 case): dispatch on the
decoder result exactly as the `match` in `parser.rs` does. -/
def decodeChar (l : List Nat) : DecodeCharOutcome :=
  match utf8Decode l with
  | .eof => .eof
  | .ok cp _ _ => .char cp
  | .err .InvalidData _ => .char 0xFFFD
  | .err .UnexpectedEof _ => .char 0xFFFD
  | .err .UnexpectedSurrogate _ => .parseError .SurrogateInInputStream
  | .err .UnexpectedNonCharacter _ => .parseError .NoncharacterInInputStream
  | .err .UnexpectedControl _ => .parseError .ControlCharacterInInputStream
  | .panic => .panic

/-! ## Model of `HtmlParser::change_encoding` (`parser.rs`)

The parser state is the pair (character_encoding, encoding_confidence).
`change_encoding` either returns normally with an updated pair, or reaches
one of the two `todo!` sites.  Because `is_encoding_equal` is itself
`todo!()`, any call that falls through the equality test aborts there; the
outcome records the (already mutated) current encoding at that moment. -/

/-- Result of `HtmlParser::change_encoding`. -/
inductive ChangeOutcome where
  | ok (encoding : CharacterEncoding) (confidence : EncodingConfidence)
  | todoIsEncodingEqual (encodingAtPanic : CharacterEncoding)
deriving DecidableEq, Repr

/-- Model of `HtmlParser::change_encoding`, threading the two mutable
fields explicitly. -/
def changeEncoding (current : CharacterEncoding) (confidence : EncodingConfidence)
    (newEncoding : CharacterEncoding) : ChangeOutcome :=
  if current = .Utf16BE ∨ current = .Utf16LE then
    .ok current .Certain
  else
    let current :=
      if newEncoding = .Utf16BE ∨ newEncoding = .Utf16LE then .Utf8 else current
    let current :=
      if newEncoding = .XUserDefined then .Windows1252 else current
    if newEncoding = current then
      .ok current .Certain
    else
      .todoIsEncodingEqual current

/-! ## Model of the pre-scanner (`prescan.rs`)

The `IoQueue` is abstracted by its peek window `window : List Nat`
(after `peek_max(1024)` the buffer holds the first `min(length, 1024)`
bytes), so `peek_nth i` is `window[i]?`.  `max_pos` is
`min(peek_len, 1024) - 1` as in the source; the source computes it in
`usize`, so on an empty stream that subtraction underflows (a debug-build
panic) — the model uses `Nat` subtraction and no theorem below touches
the empty stream.  Loops take fuel; `fuelOut` outcomes are distinct from
every program behavior. -/

/-- Model of `IoQueue::contains_bytes` restricted to the peek window
(`peek_nth` is `window[pos]?`). -/
def ioContainsBytes (window : List Nat) (pos : Nat) : List Nat → Bool
  | [] => true
  | b :: bs =>
    match window[pos]? with
    | none => false
    | some x => x == b && ioContainsBytes window (pos + 1) bs

/-- Model of `IoQueue::matches_sequence`: each position may match any byte
of the candidate set supplied for it. -/
def ioMatchesSequence (window : List Nat) (pos : Nat) : List (List Nat) → Bool
  | [] => true
  | cands :: rest =>
    match window[pos]? with
    | none => false
    | some x => cands.contains x && ioMatchesSequence window (pos + 1) rest

/-- Model of `HtmlPreScanner::contains_bytes`: `none` means the check would
run past the scan window. -/
def psContainsBytes (window : List Nat) (maxPos pos : Nat) (bytes : List Nat) :
    Option Bool :=
  if pos + bytes.length > maxPos then none
  else some (ioContainsBytes window pos bytes)

/-- Model of `HtmlPreScanner::matches_sequence`. -/
def psMatchesSequence (window : List Nat) (maxPos pos : Nat)
    (sequence : List (List Nat)) : Option Bool :=
  if pos + sequence.length > maxPos then none
  else some (ioMatchesSequence window pos sequence)

/-- Model of `HtmlPreScanner::assert_pos`. -/
def psAssertPos (maxPos pos : Nat) : Option Unit :=
  if pos > maxPos then none else some ()

/-- Generic loop outcome: a Rust panic, fuel exhaustion of the model, or a
normal result. -/
inductive StepOutcome (α : Type) where
  | panic
  | fuelOut
  | ret (a : α)
deriving DecidableEq, Repr

/-- The byte string `charset`. -/
def charsetBytes : List Nat := [0x63, 0x68, 0x61, 0x72, 0x73, 0x65, 0x74]

/-- Byte list to `String` through `u8 as char` (exact for the ASCII values
all theorems below use). -/
def bytesToString (l : List Nat) : String :=
  String.mk (l.map Char.ofNat)

/-- Step 2 loop of `extract_encoding_from_meta`: scan for the literal
`charset`.  The byte slice `&value[position..position + 7]` panics when it
runs past the end of the string; the in-loop guard tests
`position > value.len()` only after the slice was taken. -/
def findCharsetLoop (value : List Nat) : Nat → Nat → StepOutcome (Option Nat)
  | 0, _ => .fuelOut
  | fuel + 1, pos =>
    if pos + 7 > value.length then .panic
    else if (value.drop pos).take 7 = charsetBytes then .ret (some (pos + 7))
    else if pos > value.length then .ret none
    else findCharsetLoop value fuel (pos + 1)

/-- Steps 3/5 loop of `extract_encoding_from_meta`: skip ASCII whitespace;
`value.chars().nth(position).unwrap()` panics past the end. -/
def extractSkipWs (value : List Nat) : Nat → Nat → StepOutcome Nat
  | 0, _ => .fuelOut
  | fuel + 1, pos =>
    match value[pos]? with
    | none => .panic
    | some c =>
      if isAsciiWhitespaceNat c then
        if pos > value.length then .panic else extractSkipWs value fuel (pos + 1)
      else .ret pos

/-- Model of `HtmlPreScanner::extract_encoding_from_meta`.  The quoted
branch computes the terminating quote's index relative to
`&value[position..]` (which is index 0, the opening quote itself) and then
slices `&value[position..last_index]` with it, an out-of-range slice
(panic) whenever `position > 0`; the unquoted branch has the same
relative/absolute mixup but only when a terminator is found. -/
def extractEncodingFromMeta (value : List Nat) : Nat → Nat → StepOutcome (Option CharacterEncoding)
  | 0, _ => .fuelOut
  | fuel + 1, pos =>
    match findCharsetLoop value (value.length + 8) pos with
    | .panic => .panic
    | .fuelOut => .fuelOut
    | .ret none => .ret none
    | .ret (some posAfter) =>
      match extractSkipWs value (value.length + 1) posAfter with
      | .panic =>
        -- step 3's guard returns None when position overruns, but the
        -- unwrap inside fires first; both are modelled as the same exits
        -- they are in the source (unwrap panic / return None)
        .panic
      | .fuelOut => .fuelOut
      | .ret posEq =>
        match value[posEq]? with
        | none => .panic
        | some c =>
          if c ≠ 0x3D then
            extractEncodingFromMeta value fuel (posEq - 1)
          else
            match extractSkipWs value (value.length + 1) (posEq + 1) with
            | .panic => .panic
            | .fuelOut => .fuelOut
            | .ret posV =>
              match value[posV]? with
              | none => .panic
              | some q =>
                if q = 0x22 ∨ q = 0x27 then
                  if ¬ (value.drop posV).contains q then .ret none
                  else
                    match (value.drop posV).findIdx? (fun c => c == q) with
                    | none => .panic
                    | some lastIndex =>
                      if posV > lastIndex then .panic
                      else .ret (CharacterEncoding.fromStr
                        (bytesToString ((value.take lastIndex).drop posV)))
                else
                  match (value.drop posV).findIdx?
                      (fun c => isAsciiWhitespaceNat c || c == 0x3B) with
                  | some lastIndex =>
                    if posV > lastIndex then .panic
                    else .ret (CharacterEncoding.fromStr
                      (bytesToString ((value.take lastIndex).drop posV)))
                  | none =>
                    .ret (CharacterEncoding.fromStr
                      (bytesToString (value.drop posV)))

/-- ASCII whitespace byte set used throughout `prescan.rs`. -/
def wsBytes : List Nat := [0x09, 0x0A, 0x0C, 0x0D, 0x20]

/-- Whitespace-or-slash byte set. -/
def wsSlashBytes : List Nat := [0x09, 0x0A, 0x0C, 0x0D, 0x20, 0x2F]

/-- The `letters` vector of the pre-scan loop:
`(0x41..0x5A).chain(0x61..0x7A)` — both ranges exclusive, so `Z` and `z`
are absent. -/
def prescanLetters : List Nat := List.range' 0x41 25 ++ List.range' 0x61 25

/-- Result of `HtmlPreScanner::get_attribute`: `exhausted` is the source's
`None` (ran past the scan window), `noMore` its `Some(None)` (a `>` at the
position), `attr` its `Some(Some((name, value)))`; the new scan position is
carried along. -/
inductive GetAttrOutcome where
  | exhausted
  | fuelOut
  | noMore (pos : Nat)
  | attr (name value : List Nat) (pos : Nat)
deriving DecidableEq, Repr

/-- Fold an ASCII upper-case byte to lower case, as the copying loops in
`get_attribute` do. -/
def foldByte (b : Nat) : Nat :=
  if 0x41 ≤ b ∧ b ≤ 0x5A then b + 0x20 else b

/-- Step 11/12 of `get_attribute`: accumulate an unquoted value until
whitespace or `>`. -/
def gaUnquotedLoop (window : List Nat) (maxPos : Nat) (name : List Nat) :
    Nat → Nat → List Nat → GetAttrOutcome
  | 0, _, _ => .fuelOut
  | fuel + 1, pos, value =>
    match window[pos]? with
    | none => .exhausted
    | some b =>
      if wsBytes.contains b || b == 0x3E then .attr name value pos
      else
        match psAssertPos maxPos (pos + 1) with
        | none => .exhausted
        | some _ => gaUnquotedLoop window maxPos name fuel (pos + 1) (value ++ [foldByte b])

/-- The quoted-value loop of `get_attribute` step 10. -/
def gaQuotedLoop (window : List Nat) (maxPos : Nat) (name : List Nat) (quote : Nat) :
    Nat → Nat → List Nat → GetAttrOutcome
  | 0, _, _ => .fuelOut
  | fuel + 1, pos, value =>
    match psAssertPos maxPos (pos + 1) with
    | none => .exhausted
    | some _ =>
      match window[pos + 1]? with
      | none => .exhausted
      | some b =>
        if b == quote then .attr name value (pos + 2)
        else gaQuotedLoop window maxPos name quote fuel (pos + 1) (value ++ [foldByte b])

/-- Steps 9–12 of `get_attribute`: skip whitespace, then read a quoted or
unquoted value. -/
def gaValue (window : List Nat) (maxPos : Nat) (name : List Nat) :
    Nat → Nat → GetAttrOutcome
  | 0, _ => .fuelOut
  | fuel + 1, pos =>
    match psMatchesSequence window maxPos pos [wsBytes] with
    | none => .exhausted
    | some true => gaValue window maxPos name fuel (pos + 1)
    | some false =>
      match psAssertPos maxPos pos with
      | none => .exhausted
      | some _ =>
        match window[pos]? with
        | none => .exhausted
        | some b =>
          if b == 0x22 || b == 0x27 then
            gaQuotedLoop window maxPos name b (maxPos + 2) pos []
          else if b == 0x3E then .attr name [] pos
          else
            match psAssertPos maxPos (pos + 1) with
            | none => .exhausted
            | some _ => gaUnquotedLoop window maxPos name (maxPos + 2) (pos + 1) [foldByte b]

/-- Step 6–8 of `get_attribute`: whitespace after a name, then an optional
`=` introducing a value. -/
def gaAfterNameWs (window : List Nat) (maxPos : Nat) (name : List Nat) :
    Nat → Nat → GetAttrOutcome
  | 0, _ => .fuelOut
  | fuel + 1, pos =>
    match psMatchesSequence window maxPos pos [wsBytes] with
    | none => .exhausted
    | some true => gaAfterNameWs window maxPos name fuel (pos + 1)
    | some false =>
      match psAssertPos maxPos pos with
      | none => .exhausted
      | some _ =>
        match psContainsBytes window maxPos pos [0x3D] with
        | none => .exhausted
        | some false => .attr name [] pos
        | some true => gaValue window maxPos name (maxPos + 2) (pos + 1)

/-- Steps 4–5 of `get_attribute`: accumulate the (lower-cased) attribute
name. -/
def gaNameLoop (window : List Nat) (maxPos : Nat) :
    Nat → Nat → List Nat → GetAttrOutcome
  | 0, _, _ => .fuelOut
  | fuel + 1, pos, name =>
    match psAssertPos maxPos pos with
    | none => .exhausted
    | some _ =>
      match window[pos]? with
      | none => .exhausted
      | some b =>
        if b == 0x3D ∧ name ≠ [] then gaValue window maxPos name (maxPos + 2) (pos + 1)
        else if wsBytes.contains b then gaAfterNameWs window maxPos name (maxPos + 2) pos
        else if b == 0x2F || b == 0x3E then .attr name [] pos
        else gaNameLoop window maxPos fuel (pos + 1) (name ++ [foldByte b])

/-- The leading skip of `get_attribute`: slashes and whitespace. -/
def gaSkipWsSlash (window : List Nat) (maxPos : Nat) :
    Nat → Nat → StepOutcome Nat
  | 0, _ => .fuelOut
  | fuel + 1, pos =>
    match psMatchesSequence window maxPos pos [wsSlashBytes] with
    | none => .panic
    | some true => gaSkipWsSlash window maxPos fuel (pos + 1)
    | some false => .ret pos

/-- Model of `HtmlPreScanner::get_attribute`. -/
def getAttribute (window : List Nat) (maxPos pos : Nat) : GetAttrOutcome :=
  match gaSkipWsSlash window maxPos (maxPos + 2) pos with
  | .panic => .exhausted
  | .fuelOut => .fuelOut
  | .ret pos =>
    match psAssertPos maxPos pos with
    | none => .exhausted
    | some _ =>
      match psContainsBytes window maxPos pos [0x3E] with
      | none => .exhausted
      | some true => .noMore pos
      | some false => gaNameLoop window maxPos (maxPos + 2) pos []

/-- Byte string `http-equiv`. -/
def httpEquivBytes : List Nat :=
  [0x68, 0x74, 0x74, 0x70, 0x2D, 0x65, 0x71, 0x75, 0x69, 0x76]

/-- Byte string `content`. -/
def contentBytes : List Nat := [0x63, 0x6F, 0x6E, 0x74, 0x65, 0x6E, 0x74]

/-- Byte string `content-type`. -/
def contentTypeBytes : List Nat :=
  [0x63, 0x6F, 0x6E, 0x74, 0x65, 0x6E, 0x74, 0x2D, 0x74, 0x79, 0x70, 0x65]

/-- Outcome of `HtmlPreScanner::_pre_scan_byte_stream` (and of the meta
attribute loop): `exhausted` is the `None` early exit (ran past the scan
window), `panic` a Rust panic inside `extract_encoding_from_meta`. -/
inductive PreScanOutcome where
  | found (encoding : CharacterEncoding)
  | exhausted
  | panic
  | fuelOut
deriving DecidableEq, Repr

/-- State reached when the meta attribute loop of steps 6–10 finishes. -/
inductive MetaLoopOutcome where
  | exhausted
  | panic
  | fuelOut
  | done (gotPragma : Bool) (needPragma : Option Bool)
      (charset : Option CharacterEncoding) (pos : Nat)
deriving DecidableEq, Repr

/-- Steps 6–10 of the `<meta` branch: repeatedly run `get_attribute`,
recording pragma/charset information for distinct attribute names. -/
def metaAttrsLoop (window : List Nat) (maxPos : Nat) :
    Nat → Nat → List (List Nat) → Bool → Option Bool →
    Option CharacterEncoding → MetaLoopOutcome
  | 0, _, _, _, _, _ => .fuelOut
  | fuel + 1, pos, attributes, gotPragma, needPragma, charset =>
    match getAttribute window maxPos pos with
    | .exhausted => .exhausted
    | .fuelOut => .fuelOut
    | .noMore pos' => .done gotPragma needPragma charset pos'
    | .attr name value pos' =>
      if attributes.contains name then
        metaAttrsLoop window maxPos fuel pos' attributes gotPragma needPragma charset
      else
        let attributes := attributes ++ [name]
        if name = httpEquivBytes then
          let gotPragma := if value = contentTypeBytes then true else gotPragma
          metaAttrsLoop window maxPos fuel pos' attributes gotPragma needPragma charset
        else if name = contentBytes then
          match extractEncodingFromMeta value (value.length + 8) 0 with
          | .panic => .panic
          | .fuelOut => .fuelOut
          | .ret encoding =>
            match encoding, charset with
            | some e, none =>
              metaAttrsLoop window maxPos fuel pos' attributes gotPragma
                (some true) (some e)
            | _, _ =>
              metaAttrsLoop window maxPos fuel pos' attributes gotPragma
                needPragma charset
        else if name = charsetBytes then
          metaAttrsLoop window maxPos fuel pos' attributes gotPragma
            (some false) (CharacterEncoding.fromStr (bytesToString value))
        else
          metaAttrsLoop window maxPos fuel pos' attributes gotPragma needPragma charset

/-- The comment-skip loop of the `<!--` branch. -/
def commentSkipLoop (window : List Nat) (maxPos : Nat) :
    Nat → Nat → StepOutcome Nat
  | 0, _ => .fuelOut
  | fuel + 1, pos =>
    match psContainsBytes window maxPos pos [0x2D, 0x2D, 0x3E] with
    | none => .panic
    | some true => .ret pos
    | some false =>
      match psAssertPos maxPos pos with
      | none => .panic
      | some _ => commentSkipLoop window maxPos fuel (pos + 1)

/-- The tag-name skip loop of the other-tag branch: advance to the next
whitespace or `>`. -/
def tagSkipLoop (window : List Nat) (maxPos : Nat) :
    Nat → Nat → StepOutcome Nat
  | 0, _ => .fuelOut
  | fuel + 1, pos =>
    match psMatchesSequence window maxPos pos [[0x09, 0x0A, 0x0C, 0x0D, 0x20, 0x3E]] with
    | none => .panic
    | some true => .ret pos
    | some false => tagSkipLoop window maxPos fuel (pos + 1)

/-- Attribute-draining loop of the other-tag branch. -/
def drainAttrsLoop (window : List Nat) (maxPos : Nat) :
    Nat → Nat → StepOutcome Nat
  | 0, _ => .fuelOut
  | fuel + 1, pos =>
    match getAttribute window maxPos pos with
    | .exhausted => .panic
    | .fuelOut => .fuelOut
    | .noMore pos' => .ret pos'
    | .attr _ _ pos' => drainAttrsLoop window maxPos fuel pos'

/-- The `>`-skip loop of the `<!`/`</`/`<?` branch. -/
def gtSkipLoop (window : List Nat) (maxPos : Nat) :
    Nat → Nat → StepOutcome Nat
  | 0, _ => .fuelOut
  | fuel + 1, pos =>
    match psContainsBytes window maxPos pos [0x3E] with
    | none => .panic
    | some true => .ret pos
    | some false => gtSkipLoop window maxPos fuel (pos + 1)

/-- Step 4 main loop of `_pre_scan_byte_stream`. -/
def preScanLoop (window : List Nat) (maxPos : Nat) :
    Nat → Nat → PreScanOutcome
  | 0, _ => .fuelOut
  | fuel + 1, pos =>
    match psAssertPos maxPos pos with
    | none => .exhausted
    | some _ =>
      match psContainsBytes window maxPos pos [0x3C, 0x21, 0x2D, 0x2D] with
      | none => .exhausted
      | some true =>
        match commentSkipLoop window maxPos (maxPos + 2) pos with
        | .panic => .exhausted
        | .fuelOut => .fuelOut
        | .ret pos' => preScanLoop window maxPos fuel (pos' + 2 + 1)
      | some false =>
        match psMatchesSequence window maxPos pos
            [[0x3C], [0x4D, 0x6D], [0x45, 0x65], [0x54, 0x74], [0x41, 0x61],
             wsSlashBytes] with
        | none => .exhausted
        | some true =>
          match metaAttrsLoop window maxPos (maxPos + 2) (pos + 5) [] false none none with
          | .exhausted => .exhausted
          | .panic => .panic
          | .fuelOut => .fuelOut
          | .done gotPragma needPragma charset pos' =>
            match needPragma with
            | none => preScanLoop window maxPos fuel (pos' + 1)
            | some needPragma =>
              if needPragma ∧ ¬ gotPragma then preScanLoop window maxPos fuel (pos' + 1)
              else
                match charset with
                | none => preScanLoop window maxPos fuel (pos' + 1)
                | some charset =>
                  let charset :=
                    if charset = .Utf16BE ∨ charset = .Utf16LE then .Utf8 else charset
                  let charset :=
                    if charset = .XUserDefined then .Windows1252 else charset
                  .found charset
        | some false =>
          match psMatchesSequence window maxPos pos [[0x3C], prescanLetters] with
          | none => .exhausted
          | some firstAlt =>
            match (if firstAlt then some true else
                psMatchesSequence window maxPos pos [[0x3C], [0x2F], prescanLetters]) with
            | none => .exhausted
            | some true =>
              match tagSkipLoop window maxPos (maxPos + 2) pos with
              | .panic => .exhausted
              | .fuelOut => .fuelOut
              | .ret pos' =>
                match psAssertPos maxPos pos' with
                | none => .exhausted
                | some _ =>
                  match drainAttrsLoop window maxPos (maxPos + 2) pos' with
                  | .panic => .exhausted
                  | .fuelOut => .fuelOut
                  | .ret pos'' => preScanLoop window maxPos fuel (pos'' + 1)
            | some false =>
              match psMatchesSequence window maxPos pos [[0x3C], [0x21, 0x2F, 0x3F]] with
              | none => .exhausted
              | some true =>
                match gtSkipLoop window maxPos (maxPos + 2) pos with
                | .panic => .exhausted
                | .fuelOut => .fuelOut
                | .ret pos' =>
                  match psAssertPos maxPos pos' with
                  | none => .exhausted
                  | some _ => preScanLoop window maxPos fuel (pos' + 1)
              | some false => preScanLoop window maxPos fuel (pos + 1)

/-- Model of `_pre_scan_byte_stream`: `max_pos` from the buffered window,
the two UTF-16 XML-declaration probes, then the main loop. -/
def preScanByteStreamInner (window : List Nat) : PreScanOutcome :=
  let maxPos := min window.length 1024 - 1
  match psContainsBytes window maxPos 0 [0x3C, 0x0, 0x3F, 0x0, 0x78, 0x0] with
  | none => .exhausted
  | some true => .found .Utf16LE
  | some false =>
    match psContainsBytes window maxPos 0 [0x0, 0x3C, 0x0, 0x3F, 0x0, 0x78] with
    | none => .exhausted
    | some true => .found .Utf16BE
    | some false => preScanLoop window maxPos (maxPos + 2) 0

/-- Byte string `encoding`. -/
def encodingBytes : List Nat := [0x65, 0x6E, 0x63, 0x6F, 0x64, 0x69, 0x6E, 0x67]

/-- Step 4 loop of `get_xml_encoding`: advance to the literal `encoding`. -/
def xmlFindEncodingLoop (window : List Nat) (maxPos : Nat) :
    Nat → Nat → StepOutcome Nat
  | 0, _ => .fuelOut
  | fuel + 1, pos =>
    match psContainsBytes window maxPos pos encodingBytes with
    | none => .panic
    | some true => .ret pos
    | some false => xmlFindEncodingLoop window maxPos fuel (pos + 1)

/-- Steps 6/9 loop of `get_xml_encoding`: skip bytes `<= 0x20`
(`current_byte()?` propagates the end of the peek window). -/
def xmlSkipLeLoop (window : List Nat) (maxPos : Nat) :
    Nat → Nat → StepOutcome Nat
  | 0, _ => .fuelOut
  | fuel + 1, pos =>
    match window[pos]? with
    | none => .panic
    | some b =>
      if b ≤ 0x20 then xmlSkipLeLoop window maxPos fuel (pos + 1)
      else .ret pos

/-- Model of `HtmlPreScanner::get_xml_encoding`.  Step 3 and step 13 iterate
`self.position..self.max_pos` (upper bound exclusive) with
`peek_nth(i).unwrap()`; inside the window the unwrap cannot fire. -/
def getXmlEncoding (window : List Nat) (maxPos : Nat) : StepOutcome (Option CharacterEncoding) :=
  match psContainsBytes window maxPos 0 [0x3C, 0x3F, 0x78, 0x6D, 0x6C] with
  | none => .ret none
  | some false => .ret none
  | some true =>
    let found := (List.range' 0 maxPos).any (fun i => window[i]! == 0x3E)
    if ¬ found then .ret none
    else
      match xmlFindEncodingLoop window maxPos (maxPos + 2) 0 with
      | .panic => .ret none
      | .fuelOut => .fuelOut
      | .ret posEnc =>
        match xmlSkipLeLoop window maxPos (maxPos + 2) (posEnc + 8) with
        | .panic => .ret none
        | .fuelOut => .fuelOut
        | .ret posEq =>
          if window[posEq]! ≠ 0x3D then .ret none
          else
            match xmlSkipLeLoop window maxPos (maxPos + 2) (posEq + 1) with
            | .panic => .ret none
            | .fuelOut => .fuelOut
            | .ret posQ =>
              let quoteMark := window[posQ]!
              if ¬ (quoteMark = 0x22 ∨ quoteMark = 0x27) then .ret none
              else
                let pos := posQ + 1
                let endPos := (List.range' pos (maxPos - pos)).foldl
                  (fun acc i => if window[i]! == 0x3E then some i else acc) none
                match endPos with
                | none => .ret none
                | some endPos =>
                  let potential := (List.range' pos (endPos - pos)).map
                    (fun i => window[i]!)
                  if potential.any (fun b => b < 0x20) then .ret none
                  else
                    match CharacterEncoding.fromStr (bytesToString potential) with
                    | none => .ret none
                    | some e =>
                      let e := if e = .Utf16BE ∨ e = .Utf16LE then .Utf8 else e
                      .ret (some e)

/-- Model of `HtmlPreScanner::pre_scan_byte_stream`: the main byte scan,
falling back to the XML-prolog heuristic. -/
def preScanByteStream (window : List Nat) : PreScanOutcome :=
  match preScanByteStreamInner window with
  | .found e => .found e
  | .panic => .panic
  | .fuelOut => .fuelOut
  | .exhausted =>
    let maxPos := min window.length 1024 - 1
    match getXmlEncoding window maxPos with
    | .panic => .panic
    | .fuelOut => .fuelOut
    | .ret none => .exhausted
    | .ret (some e) => .found e

/-- Outcome of `HtmlParser::determine_encoding`. -/
inductive DetermineOutcome where
  | ok (encoding : CharacterEncoding) (confidence : EncodingConfidence)
  | panic
  | fuelOut
deriving DecidableEq, Repr

/-- Model of `HtmlParser::determine_encoding` over the byte stream the
`IoQueue` delivers.  The three BOM probes are peeks (`peek_nth`), so they
consume nothing; afterwards `peek_max(1024)` buffers the first
`min(length, 1024)` bytes, which is the window the pre-scanner sees.
Steps 2, 4, 6, 7 and 8 are unimplemented hooks; step 9 is the UTF-8
default. -/
def determineEncoding (stream : List Nat) : DetermineOutcome :=
  match stream[0]?, stream[1]?, stream[2]? with
  | some 0xEF, some 0xBB, some 0xBF => .ok .Utf8 .Certain
  | some 0xFE, some 0xFF, _ => .ok .Utf16BE .Certain
  | some 0xFF, some 0xFE, _ => .ok .Utf16LE .Certain
  | _, _, _ =>
    match preScanByteStream (stream.take 1024) with
    | .found e => .ok e .Tentative
    | .panic => .panic
    | .fuelOut => .fuelOut
    | .exhausted => .ok .Utf8 .Tentative

/-! ## Model of the lexer (`lexer.rs`)

The `Lexer` trait supplies `next_char` / `peek_char` / `peek_char_nth` /
`get_position` and every tokenizing method is a provided (default) method
on top of them.  The embedding mirrors that: a `CharSource` record of the
four required operations (all state-passing, since the stream-backed
implementation fills a lookahead buffer even while peeking), and generic
tokenizing functions over an arbitrary `CharSource`.  Panics
(`unwrap` / `assert!` / `assert_eq!` / `todo!`) are `abort` outcomes. -/

/-- Half-open span attached to every token (`Span` in `lexer.rs`; `stop`
is the source's `end` field, which is a reserved word here). -/
structure Span where
  start : Nat
  stop : Nat
deriving DecidableEq, Repr

/-- Tag name plus attributes (`TagData`). -/
structure TagData where
  name : List Char
  attributes : List (List Char × List Char)
deriving DecidableEq, Repr

/-- Token payload kinds (`TokenKind`). -/
inductive TokenKind where
  | Doctype (s : List Char)
  | Comment (s : List Char)
  | TagOpen (d : TagData)
  | TagClose (s : List Char)
  | TagSelfClose (d : TagData)
  | Text (s : List Char)
  | Eof
deriving DecidableEq, Repr

/-- A token: kind, verbatim text, span (`Token`). -/
structure Token where
  kind : TokenKind
  text : List Char
  span : Span
deriving DecidableEq, Repr

/-- A lexer panic: every `assert!`/`assert_eq!`/`unwrap`/`expect` failure,
or the `todo!("parse open or self close tag")` in
`expect_open_or_self_close_tag`. -/
inductive LexAbort where
  | assertFail
  | todoOpenTag
deriving DecidableEq, Repr

/-- Result of a lexer computation returning `α` (the model's `fuelOut` is
kept apart from every program behavior). -/
inductive LexOut (α : Type) where
  | abort (r : LexAbort)
  | fuelOut
  | ok (a : α)
deriving DecidableEq, Repr

/-- The four required operations of the `Lexer` trait, over a state `σ`. -/
structure CharSource (σ : Type) where
  next_char : σ → Option Char × σ
  peek_char : σ → Option Char × σ
  peek_char_nth : σ → Nat → Option Char × σ
  get_position : σ → Nat

/-- Unicode `White_Space` test backing Rust's `char::is_whitespace`. -/
def charIsWhitespace (c : Char) : Bool :=
  let n := c.toNat
  (0x09 ≤ n && n ≤ 0x0D) || n == 0x20 || n == 0x85 || n == 0xA0 ||
  n == 0x1680 || (0x2000 ≤ n && n ≤ 0x200A) || n == 0x2028 ||
  n == 0x2029 || n == 0x202F || n == 0x205F || n == 0x3000

/-- Rust `char::is_ascii_whitespace`. -/
def charIsAsciiWhitespace (c : Char) : Bool :=
  isAsciiWhitespaceNat c.toNat

/-- Rust `char::is_ascii_alphabetic`. -/
def charIsAsciiAlphabetic (c : Char) : Bool :=
  ('A' ≤ c && c ≤ 'Z') || ('a' ≤ c && c ≤ 'z')

/-- Rust `char::to_ascii_lowercase`. -/
def charToAsciiLower (c : Char) : Char :=
  if 'A' ≤ c ∧ c ≤ 'Z' then Char.ofNat (c.toNat + 0x20) else c

/-- Rust `char::eq_ignore_ascii_case`. -/
def charEqIgnoreCase (a b : Char) : Bool :=
  charToAsciiLower a == charToAsciiLower b

/-- Rust `str::trim` on a character list. -/
def trimChars (l : List Char) : List Char :=
  ((l.dropWhile charIsWhitespace).reverse.dropWhile charIsWhitespace).reverse

/-- The provided method `Lexer::chop_char`
(`assert!(self.next_char().is_some())`). -/
def chopChar (L : CharSource σ) (s : σ) : LexOut σ :=
  match L.next_char s with
  | (some _, s') => .ok s'
  | (none, _) => .abort .assertFail

/-- The provided method `Lexer::has_next`. -/
def hasNext (L : CharSource σ) (s : σ) : Bool × σ :=
  match L.peek_char s with
  | (p, s') => (p.isSome, s')

/-- Shared loop of `peek_matches` / `peek_matches_ignore_case`: compare
pattern characters against `peek_char_nth i` for increasing `i`,
short-circuiting on the first failure, exactly as `Iterator::all` does. -/
def peekMatchesAux (L : CharSource σ) (ic : Bool) :
    List Char → Nat → σ → Bool × σ
  | [], _, s => (true, s)
  | c :: cs, i, s =>
    match L.peek_char_nth s i with
    | (none, s') => (false, s')
    | (some p, s') =>
      if (if ic then charEqIgnoreCase p c else p == c) then
        peekMatchesAux L ic cs (i + 1) s'
      else (false, s')

/-- The provided method `Lexer::peek_matches`. -/
def peekMatches (L : CharSource σ) (s : σ) (chars : List Char) : Bool × σ :=
  peekMatchesAux L false chars 0 s

/-- The provided method `Lexer::peek_matches_ignore_case`. -/
def peekMatchesIgnoreCase (L : CharSource σ) (s : σ) (chars : List Char) : Bool × σ :=
  peekMatchesAux L true chars 0 s

/-- Pop `n` characters with `next_char().unwrap()`, appending them to
`text` (the `for _ in 0..n { text.push(self.next_char().unwrap()) }`
pattern). -/
def nextN (L : CharSource σ) : Nat → σ → List Char → LexOut (List Char × σ)
  | 0, s, text => .ok (text, s)
  | n + 1, s, text =>
    match L.next_char s with
    | (none, _) => .abort .assertFail
    | (some c, s') => nextN L n s' (text ++ [c])

/-- The scan loop of `expect_doctype`: copy characters until `>` (or end
of input), into both `text` and `doctype`. -/
def doctypeLoop (L : CharSource σ) :
    Nat → σ → List Char → List Char → LexOut (List Char × List Char × σ)
  | 0, _, _, _ => .fuelOut
  | fuel + 1, s, text, doctype =>
    match hasNext L s with
    | (false, s') => .ok (text, doctype, s')
    | (true, s') =>
      match peekMatches L s' ['>'] with
      | (true, s'') => .ok (text, doctype, s'')
      | (false, s'') =>
        match L.next_char s'' with
        | (none, _) => .abort .assertFail
        | (some c, s''') => doctypeLoop L fuel s''' (text ++ [c]) (doctype ++ [c])

/-- Model of `Lexer::expect_doctype`. -/
def expectDoctype (L : CharSource σ) (fuel : Nat) (s : σ) : LexOut (Token × σ) :=
  let start := L.get_position s
  match peekMatchesIgnoreCase L s ("<!DOCTYPE".toList) with
  | (false, _) => .abort .assertFail
  | (true, s) =>
    match nextN L 9 s [] with
    | .abort r => .abort r
    | .fuelOut => .fuelOut
    | .ok (text, s) =>
      match L.peek_char s with
      | (none, _) => .abort .assertFail
      | (some c, s) =>
        if c ≠ ' ' then .abort .assertFail
        else
          match L.next_char s with
          | (none, _) => .abort .assertFail
          | (some c, s) =>
            let text := text ++ [c]
            match doctypeLoop L fuel s text [] with
            | .abort r => .abort r
            | .fuelOut => .fuelOut
            | .ok (text, doctype, s) =>
              match L.peek_char s with
              | (none, _) => .abort .assertFail
              | (some c, s) =>
                if c ≠ '>' then .abort .assertFail
                else
                  match L.next_char s with
                  | (none, _) => .abort .assertFail
                  | (some c, s) =>
                    let text := text ++ [c]
                    let doctype := (trimChars doctype).map charToAsciiLower
                    if doctype ≠ "html".toList then .abort .assertFail
                    else .ok (⟨.Doctype doctype, text, ⟨start, L.get_position s⟩⟩, s)

/-- The scan loop of `expect_comment`: copy until `-->` (or end of
input). -/
def commentLoop (L : CharSource σ) :
    Nat → σ → List Char → List Char → LexOut (List Char × List Char × σ)
  | 0, _, _, _ => .fuelOut
  | fuel + 1, s, text, comment =>
    match hasNext L s with
    | (false, s') => .ok (text, comment, s')
    | (true, s') =>
      match peekMatches L s' ("-->".toList) with
      | (true, s'') => .ok (text, comment, s'')
      | (false, s'') =>
        match L.next_char s'' with
        | (none, _) => .abort .assertFail
        | (some c, s''') => commentLoop L fuel s''' (text ++ [c]) (comment ++ [c])

/-- Model of `Lexer::expect_comment`. -/
def expectComment (L : CharSource σ) (fuel : Nat) (s : σ) : LexOut (Token × σ) :=
  let start := L.get_position s
  match peekMatches L s ("<!--".toList) with
  | (false, _) => .abort .assertFail
  | (true, s) =>
    match nextN L 4 s [] with
    | .abort r => .abort r
    | .fuelOut => .fuelOut
    | .ok (text, s) =>
      match commentLoop L fuel s text [] with
      | .abort r => .abort r
      | .fuelOut => .fuelOut
      | .ok (text, comment, s) =>
        match peekMatches L s ("-->".toList) with
        | (false, _) => .abort .assertFail
        | (true, s) =>
          match nextN L 3 s text with
          | .abort r => .abort r
          | .fuelOut => .fuelOut
          | .ok (text, s) =>
            .ok (⟨.Comment comment, text, ⟨start, L.get_position s⟩⟩, s)

/-- The scan loop of `expect_close_tag`: copy until `>` (or end of input),
asserting every copied character is ASCII alphabetic or ASCII
whitespace. -/
def closeTagLoop (L : CharSource σ) :
    Nat → σ → List Char → List Char → LexOut (List Char × List Char × σ)
  | 0, _, _, _ => .fuelOut
  | fuel + 1, s, text, tagName =>
    match hasNext L s with
    | (false, s') => .ok (text, tagName, s')
    | (true, s') =>
      match peekMatches L s' ['>'] with
      | (true, s'') => .ok (text, tagName, s'')
      | (false, s'') =>
        match L.next_char s'' with
        | (none, _) => .abort .assertFail
        | (some c, s''') =>
          if ¬ (charIsAsciiAlphabetic c || charIsAsciiWhitespace c) then
            .abort .assertFail
          else closeTagLoop L fuel s''' (text ++ [c]) (tagName ++ [c])

/-- Model of `Lexer::expect_close_tag`. -/
def expectCloseTag (L : CharSource σ) (fuel : Nat) (s : σ) : LexOut (Token × σ) :=
  let start := L.get_position s
  match peekMatches L s ("</".toList) with
  | (false, _) => .abort .assertFail
  | (true, s) =>
    match nextN L 2 s [] with
    | .abort r => .abort r
    | .fuelOut => .fuelOut
    | .ok (text, s) =>
      match closeTagLoop L fuel s text [] with
      | .abort r => .abort r
      | .fuelOut => .fuelOut
      | .ok (text, tagName, s) =>
        if tagName.length = 0 then .abort .assertFail
        else if (trimChars tagName).length = 0 then .abort .assertFail
        else if ¬ (trimChars tagName).all (fun c => ¬ charIsAsciiWhitespace c) then
          .abort .assertFail
        else
          match L.peek_char s with
          | (none, _) => .abort .assertFail
          | (some c, s) =>
            if c ≠ '>' then .abort .assertFail
            else
              match L.next_char s with
              | (none, _) => .abort .assertFail
              | (some c, s) =>
                .ok (⟨.TagClose (trimChars tagName), text ++ [c],
                  ⟨start, L.get_position s⟩⟩, s)

/-- Model of `Lexer::expect_open_or_self_close_tag`: the body is
`todo!("parse open or self close tag")`. -/
def expectOpenOrSelfCloseTag (L : CharSource σ) (fuel : Nat) (s : σ) :
    LexOut (Token × σ) :=
  .abort .todoOpenTag

/-- The scan loop of `expect_text`: copy until `<` (or end of input). -/
def textLoop (L : CharSource σ) :
    Nat → σ → List Char → LexOut (List Char × σ)
  | 0, _, _ => .fuelOut
  | fuel + 1, s, text =>
    match hasNext L s with
    | (false, s') => .ok (text, s')
    | (true, s') =>
      match peekMatches L s' ['<'] with
      | (true, s'') => .ok (text, s'')
      | (false, s'') =>
        match L.next_char s'' with
        | (none, _) => .abort .assertFail
        | (some c, s''') => textLoop L fuel s''' (text ++ [c])

/-- Model of `Lexer::expect_text`.  After the loop the source asserts
`assert_eq!(self.peek_char().unwrap(), '>')` — the loop only stops at `<`
or at end of input, so this assertion can never succeed. -/
def expectText (L : CharSource σ) (fuel : Nat) (s : σ) : LexOut (Token × σ) :=
  let start := L.get_position s
  match textLoop L fuel s [] with
  | .abort r => .abort r
  | .fuelOut => .fuelOut
  | .ok (text, s) =>
    match L.peek_char s with
    | (none, _) => .abort .assertFail
    | (some c, s) =>
      if c ≠ '>' then .abort .assertFail
      else .ok (⟨.Text (trimChars text), text, ⟨start, L.get_position s⟩⟩, s)

/-- The whitespace-munching inner loop of `next_token`. -/
def wsMunchLoop (L : CharSource σ) : Nat → σ → LexOut σ
  | 0, _ => .fuelOut
  | fuel + 1, s =>
    match L.peek_char s with
    | (some c, s') =>
      if charIsWhitespace c then
        match chopChar L s' with
        | .abort r => .abort r
        | .fuelOut => .fuelOut
        | .ok s'' => wsMunchLoop L fuel s''
      else .ok s'
    | (none, s') => .ok s'

/-- The `while self.has_next()` dispatch loop of `next_token`. -/
def nextTokenLoop (L : CharSource σ) : Nat → σ → LexOut (Option Token × σ)
  | 0, _ => .fuelOut
  | fuel + 1, s =>
    match hasNext L s with
    | (false, s) => .ok (none, s)
    | (true, s) =>
      match peekMatches L s ("<!--".toList) with
      | (true, s) =>
        match expectComment L fuel s with
        | .abort r => .abort r
        | .fuelOut => .fuelOut
        | .ok (t, s) => .ok (some t, s)
      | (false, s) =>
        match peekMatchesIgnoreCase L s ("<!DOCTYPE".toList) with
        | (true, s) =>
          match expectDoctype L fuel s with
          | .abort r => .abort r
          | .fuelOut => .fuelOut
          | .ok (t, s) => .ok (some t, s)
        | (false, s) =>
          match peekMatches L s ("</".toList) with
          | (true, s) =>
            match expectCloseTag L fuel s with
            | .abort r => .abort r
            | .fuelOut => .fuelOut
            | .ok (t, s) => .ok (some t, s)
          | (false, s) =>
            match peekMatches L s ['<'] with
            | (true, s) =>
              match expectOpenOrSelfCloseTag L fuel s with
              | .abort r => .abort r
              | .fuelOut => .fuelOut
              | .ok (t, s) => .ok (some t, s)
            | (false, s) =>
              match L.peek_char s with
              | (none, _) => .abort .assertFail
              | (some c, s) =>
                if charIsWhitespace c then
                  match wsMunchLoop L (fuel + 1) s with
                  | .abort r => .abort r
                  | .fuelOut => .fuelOut
                  | .ok s => nextTokenLoop L fuel s
                else
                  match expectText L fuel s with
                  | .abort r => .abort r
                  | .fuelOut => .fuelOut
                  | .ok (t, s) => .ok (some t, s)

/-- Model of `Lexer::next_token`: an immediate Eof token when no character
remains, otherwise the dispatch loop (which yields `none` when trailing
whitespace exhausts the input). -/
def nextToken (L : CharSource σ) (fuel : Nat) (s : σ) : LexOut (Option Token × σ) :=
  match L.peek_char s with
  | (none, s) =>
    .ok (some ⟨.Eof, [], ⟨L.get_position s, L.get_position s⟩⟩, s)
  | (some _, s) => nextTokenLoop L fuel s

/-- The first `k` results of successive `next_token` calls (state dropped,
so streams from different source types can be compared). -/
def tokensN (L : CharSource σ) (fuel : Nat) : Nat → σ → LexOut (List (Option Token))
  | 0, _ => .ok []
  | k + 1, s =>
    match nextToken L fuel s with
    | .abort r => .abort r
    | .fuelOut => .fuelOut
    | .ok (t, s') =>
      match tokensN L fuel k s' with
      | .abort r => .abort r
      | .fuelOut => .fuelOut
      | .ok ts => .ok (t :: ts)

/-- State of `StringLexer`: the input string (as characters, since the
source indexes with `chars().nth`) and the cursor position. -/
structure StringLexerState where
  input : List Char
  position : Nat
deriving DecidableEq, Repr

/-- The `Lexer` impl of `StringLexer`. -/
def stringSource : CharSource StringLexerState where
  next_char s :=
    match s.input[s.position]? with
    | none => (none, s)
    | some c => (some c, { s with position := s.position + 1 })
  peek_char s := (s.input[s.position]?, s)
  peek_char_nth s n := (s.input[s.position + n]?, s)
  get_position s := s.position

/-- State of `StreamLexer`: the lookahead queue `peeked`, the bytes the
underlying reader has not yet delivered, and the cursor position.  The
reader model is deterministic: a `read` into a buffer of `k` bytes
delivers `min(k, remaining)` bytes. -/
structure StreamLexerState where
  peeked : List Char
  remaining : List Nat
  position : Nat
deriving DecidableEq, Repr

/-- The `Lexer` impl of `StreamLexer`.  Each byte is converted with
`buf[0] as char` (i.e. `Char.ofNat`); `peek_char_nth` reads
`n + 1 - peeked.len()` bytes at once and discards a short read after the
reader has consumed it. -/
def streamSource : CharSource StreamLexerState where
  next_char s :=
    match s.peeked with
    | c :: rest => (some c, { s with peeked := rest, position := s.position + 1 })
    | [] =>
      match s.remaining with
      | [] => (none, s)
      | b :: rest =>
        (some (Char.ofNat b), { s with remaining := rest, position := s.position + 1 })
  peek_char s :=
    match s.peeked with
    | c :: _ => (some c, s)
    | [] =>
      match s.remaining with
      | [] => (none, s)
      | b :: rest =>
        (some (Char.ofNat b), { s with peeked := [Char.ofNat b], remaining := rest })
  peek_char_nth s n :=
    if s.peeked.length > n then (s.peeked[n]?, s)
    else
      let charsToPeek := n + 1 - s.peeked.length
      let numBytes := min charsToPeek s.remaining.length
      if numBytes < charsToPeek then
        (none, { s with remaining := s.remaining.drop numBytes })
      else
        let s' := { s with
          peeked := s.peeked ++ (s.remaining.take charsToPeek).map Char.ofNat,
          remaining := s.remaining.drop charsToPeek }
        (s'.peeked[n]?, s')
  get_position s := s.position

/-- The standard UTF-8 encoding of a code point — the claims' notion of
"the byte sequence that validly encodes a scalar" (and, per character,
of "the corresponding byte stream" of a text).  This is a specification
yardstick, not a function of the source. -/
def utf8Encode (n : Nat) : List Nat :=
  if n < 0x80 then [n]
  else if n < 0x800 then
    [0xC0 ||| (n >>> 6), 0x80 ||| (n &&& 0x3F)]
  else if n < 0x10000 then
    [0xE0 ||| (n >>> 12), 0x80 ||| ((n >>> 6) &&& 0x3F), 0x80 ||| (n &&& 0x3F)]
  else
    [0xF0 ||| (n >>> 18), 0x80 ||| ((n >>> 12) &&& 0x3F),
     0x80 ||| ((n >>> 6) &&& 0x3F), 0x80 ||| (n &&& 0x3F)]

/-- UTF-8 byte stream of a character sequence. -/
def utf8EncodeChars (l : List Char) : List Nat :=
  (l.map (fun c => utf8Encode c.toNat)).flatten

/-- Correspondence between a `StringLexer` state and a `StreamLexer`
state: same cursor position, and the characters still to be served agree
(the stream still holds them split between its lookahead queue and the
reader, each pending byte becoming a character via `as char`). -/
def SrcRel (s : StringLexerState) (t : StreamLexerState) : Prop :=
  t.position = s.position ∧
  t.peeked ++ t.remaining.map Char.ofNat = s.input.drop s.position

/-- Correspondence of lexer outcomes that carry a value and a state:
same abort, same fuel exhaustion, or same value with corresponding
states. -/
def LexOutRel {β : Type}
    (o₁ : LexOut (β × StringLexerState)) (o₂ : LexOut (β × StreamLexerState)) : Prop :=
  (∃ r, o₁ = .abort r ∧ o₂ = .abort r) ∨
  (o₁ = .fuelOut ∧ o₂ = .fuelOut) ∨
  (∃ v s t, o₁ = .ok (v, s) ∧ o₂ = .ok (v, t) ∧ SrcRel s t)

/-- Correspondence of lexer outcomes that carry only a state. -/
def LexOutRelSt (o₁ : LexOut StringLexerState) (o₂ : LexOut StreamLexerState) : Prop :=
  (∃ r, o₁ = .abort r ∧ o₂ = .abort r) ∨
  (o₁ = .fuelOut ∧ o₂ = .fuelOut) ∨
  (∃ s t, o₁ = .ok s ∧ o₂ = .ok t ∧ SrcRel s t)

/-- Correspondence of lexer outcomes carrying two accumulators and a
state. -/
def LexOutRel3 {β₁ β₂ : Type}
    (o₁ : LexOut (β₁ × β₂ × StringLexerState))
    (o₂ : LexOut (β₁ × β₂ × StreamLexerState)) : Prop :=
  (∃ r, o₁ = .abort r ∧ o₂ = .abort r) ∨
  (o₁ = .fuelOut ∧ o₂ = .fuelOut) ∨
  (∃ v₁ v₂ s t, o₁ = .ok (v₁, v₂, s) ∧ o₂ = .ok (v₁, v₂, t) ∧ SrcRel s t)

/-! ## Claims -/

/-- Claim C1, as stated, is false: `from_str` matches labels by exact,
case-sensitive string equality, so the documented label `UTF-8` in upper
case is rejected (`Err(())`) even though its lower-case spelling is in
the table. -/
theorem C1_counterexample :
    CharacterEncoding.fromStr "UTF-8" = none ∧
    CharacterEncoding.fromStr "utf-8" = some CharacterEncoding.Utf8 :=
  ⟨rfl, rfl⟩

/-- Claim C1 (amended): for every label of the table in its documented
(lower-case) spelling, `from_str` returns the documented canonical
encoding, and every string matching no label of the table is rejected. -/
theorem C1_label_table_exact :
    (∀ arm ∈ labelArms, ∀ l ∈ arm.1,
      CharacterEncoding.fromStr l = some arm.2) ∧
    (∀ s : String, (∀ arm ∈ labelArms, s ∉ arm.1) →
      CharacterEncoding.fromStr s = none) := by
  constructor
  · decide
  · intro s h
    unfold CharacterEncoding.fromStr
    rw [List.find?_eq_none.mpr]
    · rfl
    · intro arm harm
      have hmem := h arm harm
      simpa using hmem

/-- Witness for C1: the table row for `latin5` and an instantiation of
both directions. -/
theorem C1_label_table_exact_witness :
    CharacterEncoding.fromStr "latin5" = some CharacterEncoding.Windows1254 ∧
    CharacterEncoding.fromStr "not-an-encoding" = none := by
  constructor
  · exact C1_label_table_exact.1
      (["cp1254", "csisolatin5", "iso-8859-9", "iso-ir-148", "iso8859-9",
        "iso88599", "iso_8859-9", "iso_8859-9:1989", "l5", "latin5",
        "windows-1254", "x-cp1254"], .Windows1254) (by decide) "latin5" (by decide)
  · exact C1_label_table_exact.2 "not-an-encoding" (by decide)

/-- Claim C2: tokenizing `<!DOCTYPE html><p>Hi</p>` first yields the
doctype token, but the second `next_token` call reaches `<p` and lands in
`expect_open_or_self_close_tag`, whose body is
`todo!("parse open or self close tag")` — a panic, not a TagOpen token.
The claimed Doctype/TagOpen/Text/TagClose/Eof stream is unreachable. -/
theorem C2_tagopen_is_todo :
    nextToken stringSource 100 ⟨"<!DOCTYPE html><p>Hi</p>".toList, 0⟩ =
      .ok (some ⟨.Doctype "html".toList, "<!DOCTYPE html>".toList, ⟨0, 15⟩⟩,
        ⟨"<!DOCTYPE html><p>Hi</p>".toList, 15⟩) ∧
    nextToken stringSource 100 ⟨"<!DOCTYPE html><p>Hi</p>".toList, 15⟩ =
      .abort .todoOpenTag ∧
    tokensN stringSource 100 2 ⟨"<!DOCTYPE html><p>Hi</p>".toList, 0⟩ =
      .abort .todoOpenTag := by
  refine ⟨by decide, by decide, by decide⟩

/-- Claim C3, as stated, is false: calling `next_token` on an exhausted
lexer returns an Eof token on every call, so the second call yields a
second Eof token instead of "no further tokens". -/
theorem C3_counterexample :
    tokensN stringSource 1 2 ⟨[], 0⟩ =
      .ok [some ⟨.Eof, [], ⟨0, 0⟩⟩, some ⟨.Eof, [], ⟨0, 0⟩⟩] := by
  decide

/-- Claim C3 (amended): whenever `next_token` is called with no character
remaining, it returns an Eof token with an empty span at the final
position and leaves the lexer state unchanged — hence every subsequent
call yields another Eof token (rather than no token).  This holds for
both lexer implementations. -/
theorem C3_eof_token_repeats :
    (∀ (input : List Char) (pos fuel : Nat), input.length ≤ pos →
      nextToken stringSource fuel ⟨input, pos⟩ =
        .ok (some ⟨.Eof, [], ⟨pos, pos⟩⟩, ⟨input, pos⟩)) ∧
    (∀ (pos fuel : Nat),
      nextToken streamSource fuel ⟨[], [], pos⟩ =
        .ok (some ⟨.Eof, [], ⟨pos, pos⟩⟩, ⟨[], [], pos⟩)) := by
  constructor
  · intro input pos fuel h
    have : input[pos]? = none := by
      rw [List.getElem?_eq_none_iff]
      exact h
    simp [nextToken, stringSource, this]
  · intro pos fuel
    simp [nextToken, streamSource]

/-- Witness for C3: an exhausted one-character input yields Eof twice. -/
theorem C3_eof_token_repeats_witness :
    nextToken stringSource 0 ⟨['a'], 1⟩ =
      .ok (some ⟨.Eof, [], ⟨1, 1⟩⟩, ⟨['a'], 1⟩) ∧
    nextToken streamSource 0 ⟨[], [], 1⟩ =
      .ok (some ⟨.Eof, [], ⟨1, 1⟩⟩, ⟨[], [], 1⟩) :=
  ⟨C3_eof_token_repeats.1 ['a'] 1 0 (by decide),
   C3_eof_token_repeats.2 1 0⟩

/-- Claim C4: on `EF BB BF ...` the sniffing algorithm does return
(UTF-8, Certain) — but it only `peek`s the three bytes, never consuming
them, so the very first `decode_char` of the same pipeline instance
decodes those three bytes into U+FEFF and hands it out as a document
character.  The BOM is exposed as content, contradicting the claim. -/
theorem C4_bom_decoded_as_content :
    determineEncoding [0xEF, 0xBB, 0xBF, 0x41] = .ok .Utf8 .Certain ∧
    utf8Decode [0xEF, 0xBB, 0xBF, 0x41] = .ok 0xFEFF [0xEF, 0xBB, 0xBF] [0x41] ∧
    decodeChar [0xEF, 0xBB, 0xBF, 0x41] = .char 0xFEFF := by
  refine ⟨by decide, by decide, by decide⟩

/-- Claim C5: with current encoding Windows1252/Tentative and a newly
discovered UTF-16LE, `change_encoding` first overwrites the *current*
encoding with UTF-8 (instead of substituting UTF-8 for the new one), so
the following equality test compares UTF-16LE against UTF-8, fails, and
control reaches `is_encoding_equal` — whose body is `todo!()`.  The call
panics with the confidence still unset, instead of terminating normally
with (UTF-8, Certain). -/
theorem C5_change_encoding_panics :
    changeEncoding .Windows1252 .Tentative .Utf16LE =
      .todoIsEncodingEqual .Utf8 := by
  decide

/-- Claim C6: pre-scanning the meta tag with both the Content-Type pragma
and a `charset=` token inside the `content` value yields UTF-8 (Tentative
through `determine_encoding`); with `http-equiv` removed, `need_pragma`
is set but no pragma is seen, so the scanner moves past the tag and the
scan ends with no result.  A trailing byte follows the tag so that the
closing `>` lies strictly inside the scan window. -/
theorem C6_meta_pragma_content_charset :
    preScanByteStream
      (("<meta http-equiv=\x22Content-Type\x22 content=\x22text/html; charset=UTF-8\x22>\n").toList.map Char.toNat) =
      .found .Utf8 ∧
    determineEncoding
      (("<meta http-equiv=\x22Content-Type\x22 content=\x22text/html; charset=UTF-8\x22>\n").toList.map Char.toNat) =
      .ok .Utf8 .Tentative ∧
    preScanByteStream
      (("<meta content=\x22text/html; charset=UTF-8\x22>\n").toList.map Char.toNat) =
      .exhausted := by
  refine ⟨by decide, by decide, by decide⟩

/-- Claim C7: the decoder accepts the overlong sequence `C0 80` and
returns scalar U+0000 — an `Ok` with a scalar those bytes do not validly
encode — and on `F4 90 80 80` (which would denote U+110000, beyond the
Unicode range) it fails its own `assert!(code_point < 0x10FFFF)` instead
of returning `InvalidData`. -/
theorem C7_overlong_and_out_of_range :
    utf8Decode [0xC0, 0x80] = .ok 0 [0xC0, 0x80] [] ∧
    utf8Decode [0xF4, 0x90, 0x80, 0x80] = .panic := by
  refine ⟨by decide, by decide⟩

/-- Claim C8: a `<meta content="...">` whose value contains no `charset`
makes `extract_encoding_from_meta` slice `&value[position..position + 7]`
past the end of the value — a Rust panic, both in the scan itself and in
the `determine_encoding` pipeline that invokes it.  (Independently, the
empty stream underflows the `usize` computation `peek_len - 1` of
`max_pos`.) -/
theorem C8_prescan_panics :
    preScanByteStream (("<meta content=\x22abc\x22>x").toList.map Char.toNat) =
      .panic ∧
    determineEncoding (("<meta content=\x22abc\x22>x").toList.map Char.toNat) =
      .panic := by
  refine ⟨by decide, by decide⟩

/-- Claim C9, as stated, is false for U+0000: the control-character arm of
the decoder carries the guard `x != 0`, so the NUL byte decodes
successfully to scalar 0 instead of raising `UnexpectedControl`. -/
theorem C9_counterexample :
    utf8Decode [0x00] = .ok 0 [0x00] [] ∧
    decodeChar [0x00] = .char 0 := by
  refine ⟨by decide, by decide⟩

/-- Claim C9 (amended): for every C0/C1 control scalar other than ASCII
whitespace and other than U+0000, decoding its UTF-8 encoding returns
`UnexpectedControl`, and `decode_char` surfaces it as the distinct
`ControlCharacterInInputStream` parse-error kind. -/
theorem C9_control_rejected (n : Nat) (rest : List Nat)
    (hrange : (1 ≤ n ∧ n ≤ 0x1F) ∨ (0x7F ≤ n ∧ n ≤ 0x9F))
    (hws : isAsciiWhitespaceNat n = false) :
    utf8Decode (utf8Encode n ++ rest) = .err .UnexpectedControl rest ∧
    decodeChar (utf8Encode n ++ rest) = .parseError .ControlCharacterInInputStream := by
  rcases hrange with ⟨h1, h2⟩ | ⟨h1, h2⟩ <;> interval_cases n <;>
    first
      | exact absurd hws (by decide)
      | exact ⟨rfl, rfl⟩

/-- Witness for C9: the DEL control U+007F. -/
theorem C9_control_rejected_witness :
    utf8Decode (utf8Encode 0x7F ++ []) = .err .UnexpectedControl [] ∧
    decodeChar (utf8Encode 0x7F ++ []) =
      .parseError .ControlCharacterInInputStream :=
  C9_control_rejected 0x7F [] (by decide) (by decide)

/-- Claim C10, as stated, is false: for the character sequence
`<!--é-->`, the `StringLexer` yields a comment token with text `é` and
span ending at 8, while the `StreamLexer` over the corresponding (UTF-8)
byte stream converts each byte separately with `as char` and yields a
comment whose text is the two characters `Ã©` with span ending at 9. -/
theorem C10_counterexample :
    tokensN stringSource 100 2 ⟨"<!--é-->".toList, 0⟩ ≠
    tokensN streamSource 100 2 ⟨[], utf8EncodeChars "<!--é-->".toList, 0⟩ := by
  decide

/-! ## Correspondence lemmas for the two lexer implementations (C10)

Under `SrcRel`, each required operation of the `Lexer` trait behaves the
same in `StringLexer` and `StreamLexer`, and hence so does every provided
method.  `peek_char_nth` needs the side condition `n ≤ peeked.length`:
the stream implementation discards a short read, but the tokenizer only
reaches index `n` after indices `0..n-1` succeeded, which keeps the
lookahead queue long enough — the auxiliary pattern-matching lemma
carries that invariant. -/

theorem srcRel_next_char {s : StringLexerState} {t : StreamLexerState}
    (h : SrcRel s t) :
    ∃ r s' t', stringSource.next_char s = (r, s') ∧
      streamSource.next_char t = (r, t') ∧ SrcRel s' t' := by
  obtain ⟨input, spos⟩ := s
  obtain ⟨peeked, remaining, tpos⟩ := t
  obtain ⟨hpos, hq⟩ := h
  simp only at hpos hq
  subst hpos
  rcases peeked with _ | ⟨c, ps⟩
  · rcases remaining with _ | ⟨b, bs⟩
    · have hlen : input.length ≤ tpos := by
        rw [← List.drop_eq_nil_iff]
        exact hq.symm
      have hget : input[tpos]? = none := by
        rw [List.getElem?_eq_none_iff]; exact hlen
      exact ⟨none, ⟨input, tpos⟩, ⟨[], [], tpos⟩, by simp [stringSource, hget],
        by simp [streamSource], rfl, hq⟩
    · simp only [List.nil_append, List.map_cons] at hq
      have hget : input[tpos]? = some (Char.ofNat b) := by
        have h0 := congrArg (fun l => l[0]?) hq.symm
        simpa using h0
      have htail : bs.map Char.ofNat = input.drop (tpos + 1) := by
        have h1 := congrArg List.tail hq
        simpa [List.tail_drop] using h1
      refine ⟨some (Char.ofNat b), ⟨input, tpos + 1⟩, ⟨[], bs, tpos + 1⟩,
        by simp [stringSource, hget], by simp [streamSource], rfl, by simpa using htail⟩
  · simp only [List.cons_append] at hq
    have hget : input[tpos]? = some c := by
      have h0 := congrArg (fun l => l[0]?) hq.symm
      simpa using h0
    have htail : ps ++ remaining.map Char.ofNat = input.drop (tpos + 1) := by
      have h1 := congrArg List.tail hq
      simpa [List.tail_drop] using h1
    exact ⟨some c, ⟨input, tpos + 1⟩, ⟨ps, remaining, tpos + 1⟩,
      by simp [stringSource, hget], by simp [streamSource], rfl, htail⟩

theorem srcRel_peek_char {s : StringLexerState} {t : StreamLexerState}
    (h : SrcRel s t) :
    ∃ r t', stringSource.peek_char s = (r, s) ∧
      streamSource.peek_char t = (r, t') ∧ SrcRel s t' := by
  obtain ⟨input, spos⟩ := s
  obtain ⟨peeked, remaining, tpos⟩ := t
  obtain ⟨hpos, hq⟩ := h
  simp only at hpos hq
  subst hpos
  rcases peeked with _ | ⟨c, ps⟩
  · rcases remaining with _ | ⟨b, bs⟩
    · have hlen : input.length ≤ tpos := by
        rw [← List.drop_eq_nil_iff]
        exact hq.symm
      have hget : input[tpos]? = none := by
        rw [List.getElem?_eq_none_iff]; exact hlen
      exact ⟨none, ⟨[], [], tpos⟩, by simp [stringSource, hget],
        by simp [streamSource], rfl, hq⟩
    · simp only [List.nil_append, List.map_cons] at hq
      have hget : input[tpos]? = some (Char.ofNat b) := by
        have h0 := congrArg (fun l => l[0]?) hq.symm
        simpa using h0
      exact ⟨some (Char.ofNat b), ⟨[Char.ofNat b], bs, tpos⟩,
        by simp [stringSource, hget], by simp [streamSource], rfl, by simpa using hq⟩
  · simp only [List.cons_append] at hq
    have hget : input[tpos]? = some c := by
      have h0 := congrArg (fun l => l[0]?) hq.symm
      simpa using h0
    exact ⟨some c, ⟨c :: ps, remaining, tpos⟩, by simp [stringSource, hget],
      by simp [streamSource], rfl, by simpa using hq⟩

theorem srcRel_peek_char_nth {s : StringLexerState} {t : StreamLexerState}
    (h : SrcRel s t) {n : Nat} (hn : n ≤ t.peeked.length) :
    ∃ r t', stringSource.peek_char_nth s n = (r, s) ∧
      streamSource.peek_char_nth t n = (r, t') ∧ SrcRel s t' ∧
      (r.isSome = true → n + 1 ≤ t'.peeked.length) := by
  obtain ⟨input, spos⟩ := s
  obtain ⟨peeked, remaining, tpos⟩ := t
  obtain ⟨hpos, hq⟩ := h
  simp only at hpos hq
  subst hpos
  by_cases hlt : n < peeked.length
  · have hr : peeked[n]? = input[tpos + n]? := by
      calc peeked[n]? = (peeked ++ remaining.map Char.ofNat)[n]? :=
            (List.getElem?_append_left hlt).symm
        _ = (input.drop tpos)[n]? := by rw [hq]
        _ = input[tpos + n]? := by rw [List.getElem?_drop]
    refine ⟨input[tpos + n]?, ⟨peeked, remaining, tpos⟩, rfl, ?_, ⟨rfl, hq⟩, ?_⟩
    · simp [streamSource, hlt, hr]
    · intro _; exact hlt
  · have hlen : peeked.length = n := le_antisymm (Nat.le_of_not_lt hlt) hn
    rcases remaining with _ | ⟨b, bs⟩
    · have hgetS : input[tpos + n]? = none := by
        rw [List.getElem?_eq_none_iff]
        have : input.length - tpos = n := by
          have := congrArg List.length hq
          simpa [hlen] using this.symm
        omega
      refine ⟨none, ⟨peeked, [], tpos⟩, by simp [stringSource, hgetS], ?_,
        ⟨rfl, hq⟩, by simp⟩
      simp [streamSource, hlt, hlen]
    · have hgetS : input[tpos + n]? = some (Char.ofNat b) := by
        calc input[tpos + n]? = (input.drop tpos)[n]? := by rw [List.getElem?_drop]
          _ = (peeked ++ Char.ofNat b :: bs.map Char.ofNat)[n]? := by
              rw [← hq]; rfl
          _ = some (Char.ofNat b) := by
              rw [List.getElem?_append_right (by omega)]
              simp [hlen]
      refine ⟨some (Char.ofNat b), ⟨peeked ++ [Char.ofNat b], bs, tpos⟩,
        by simp [stringSource, hgetS], ?_, ⟨rfl, by simpa using hq⟩, ?_⟩
      · simp only [streamSource, hlt, if_false]
        have h1 : n + 1 - peeked.length = 1 := by omega
        simp [h1, hgetS, hlen, List.getElem?_append_right, List.take, List.drop]
      · intro _; simp [hlen]

theorem srcRel_peekMatchesAux (ic : Bool) (cs : List Char) :
    ∀ (i : Nat) (s : StringLexerState) (t : StreamLexerState),
      SrcRel s t → i ≤ t.peeked.length →
      ∃ b t', peekMatchesAux stringSource ic cs i s = (b, s) ∧
        peekMatchesAux streamSource ic cs i t = (b, t') ∧ SrcRel s t' := by
  induction cs with
  | nil => exact fun i s t h _ => ⟨true, t, rfl, rfl, h⟩
  | cons c cs ih =>
    intro i s t h hi
    obtain ⟨r, t', hS, hT, h', hpost⟩ := srcRel_peek_char_nth h hi
    rcases r with _ | ⟨p⟩
    · exact ⟨false, t', by simp [peekMatchesAux, hS], by simp [peekMatchesAux, hT], h'⟩
    · by_cases hc : (if ic then charEqIgnoreCase p c else p == c) = true
      · obtain ⟨b, t'', hS2, hT2, h''⟩ := ih (i + 1) s t' h' (hpost (by simp))
        exact ⟨b, t'', by simp [peekMatchesAux, hS, hc, hS2],
          by simp [peekMatchesAux, hT, hc, hT2], h''⟩
      · exact ⟨false, t', by simp [peekMatchesAux, hS, hc],
          by simp [peekMatchesAux, hT, hc], h'⟩

theorem srcRel_peekMatches {s : StringLexerState} {t : StreamLexerState}
    (h : SrcRel s t) (cs : List Char) :
    ∃ b t', peekMatches stringSource s cs = (b, s) ∧
      peekMatches streamSource t cs = (b, t') ∧ SrcRel s t' :=
  srcRel_peekMatchesAux false cs 0 s t h (Nat.zero_le _)

theorem srcRel_peekMatchesIgnoreCase {s : StringLexerState} {t : StreamLexerState}
    (h : SrcRel s t) (cs : List Char) :
    ∃ b t', peekMatchesIgnoreCase stringSource s cs = (b, s) ∧
      peekMatchesIgnoreCase streamSource t cs = (b, t') ∧ SrcRel s t' :=
  srcRel_peekMatchesAux true cs 0 s t h (Nat.zero_le _)

theorem srcRel_hasNext {s : StringLexerState} {t : StreamLexerState}
    (h : SrcRel s t) :
    ∃ b t', hasNext stringSource s = (b, s) ∧
      hasNext streamSource t = (b, t') ∧ SrcRel s t' := by
  obtain ⟨r, t', hS, hT, h'⟩ := srcRel_peek_char h
  exact ⟨r.isSome, t', by simp [hasNext, hS], by simp [hasNext, hT], h'⟩

theorem srcRel_position {s : StringLexerState} {t : StreamLexerState}
    (h : SrcRel s t) :
    streamSource.get_position t = stringSource.get_position s :=
  h.1

theorem srcRel_chopChar {s : StringLexerState} {t : StreamLexerState}
    (h : SrcRel s t) : LexOutRelSt (chopChar stringSource s) (chopChar streamSource t) := by
  obtain ⟨r, s', t', hS, hT, h'⟩ := srcRel_next_char h
  rcases r with _ | ⟨c⟩
  · exact .inl ⟨.assertFail, by simp [chopChar, hS], by simp [chopChar, hT]⟩
  · exact .inr (.inr ⟨s', t', by simp [chopChar, hS], by simp [chopChar, hT], h'⟩)

theorem srcRel_nextN (n : Nat) :
    ∀ (s : StringLexerState) (t : StreamLexerState) (text : List Char),
      SrcRel s t →
      LexOutRel (nextN stringSource n s text) (nextN streamSource n t text) := by
  induction n with
  | zero => exact fun s t text h => .inr (.inr ⟨text, s, t, rfl, rfl, h⟩)
  | succ n ih =>
    intro s t text h
    obtain ⟨r, s', t', hS, hT, h'⟩ := srcRel_next_char h
    rcases r with _ | ⟨c⟩
    · exact .inl ⟨.assertFail, by simp [nextN, hS], by simp [nextN, hT]⟩
    · have := ih s' t' (text ++ [c]) h'
      simpa [nextN, hS, hT] using this

theorem srcRel_doctypeLoop (fuel : Nat) :
    ∀ (s : StringLexerState) (t : StreamLexerState) (text dt : List Char),
      SrcRel s t →
      LexOutRel3 (doctypeLoop stringSource fuel s text dt)
        (doctypeLoop streamSource fuel t text dt) := by
  induction fuel with
  | zero => exact fun s t text dt h => .inr (.inl ⟨rfl, rfl⟩)
  | succ fuel ih =>
    intro s t text dt h
    obtain ⟨b1, t1, hS1, hT1, h1⟩ := srcRel_hasNext h
    cases b1
    · exact .inr (.inr ⟨text, dt, s, t1, by simp [doctypeLoop, hS1],
        by simp [doctypeLoop, hT1], h1⟩)
    · obtain ⟨b2, t2, hS2, hT2, h2⟩ := srcRel_peekMatches h1 ['>']
      cases b2
      · obtain ⟨r, s3, t3, hS3, hT3, h3⟩ := srcRel_next_char h2
        rcases r with _ | ⟨c⟩
        · exact .inl ⟨.assertFail, by simp [doctypeLoop, hS1, hS2, hS3],
            by simp [doctypeLoop, hT1, hT2, hT3]⟩
        · have := ih s3 t3 (text ++ [c]) (dt ++ [c]) h3
          simpa [doctypeLoop, hS1, hT1, hS2, hT2, hS3, hT3] using this
      · exact .inr (.inr ⟨text, dt, s, t2, by simp [doctypeLoop, hS1, hS2],
          by simp [doctypeLoop, hT1, hT2], h2⟩)

theorem srcRel_commentLoop (fuel : Nat) :
    ∀ (s : StringLexerState) (t : StreamLexerState) (text comment : List Char),
      SrcRel s t →
      LexOutRel3 (commentLoop stringSource fuel s text comment)
        (commentLoop streamSource fuel t text comment) := by
  induction fuel with
  | zero => exact fun s t text comment h => .inr (.inl ⟨rfl, rfl⟩)
  | succ fuel ih =>
    intro s t text comment h
    obtain ⟨b1, t1, hS1, hT1, h1⟩ := srcRel_hasNext h
    cases b1
    · exact .inr (.inr ⟨text, comment, s, t1, by simp [commentLoop, hS1],
        by simp [commentLoop, hT1], h1⟩)
    · obtain ⟨b2, t2, hS2, hT2, h2⟩ := srcRel_peekMatches h1 ['-', '-', '>']
      cases b2
      · obtain ⟨r, s3, t3, hS3, hT3, h3⟩ := srcRel_next_char h2
        rcases r with _ | ⟨c⟩
        · exact .inl ⟨.assertFail, by simp [commentLoop, hS1, hS2, hS3],
            by simp [commentLoop, hT1, hT2, hT3]⟩
        · have := ih s3 t3 (text ++ [c]) (comment ++ [c]) h3
          simpa [commentLoop, hS1, hT1, hS2, hT2, hS3, hT3] using this
      · exact .inr (.inr ⟨text, comment, s, t2, by simp [commentLoop, hS1, hS2],
          by simp [commentLoop, hT1, hT2], h2⟩)

theorem srcRel_closeTagLoop (fuel : Nat) :
    ∀ (s : StringLexerState) (t : StreamLexerState) (text tagName : List Char),
      SrcRel s t →
      LexOutRel3 (closeTagLoop stringSource fuel s text tagName)
        (closeTagLoop streamSource fuel t text tagName) := by
  induction fuel with
  | zero => exact fun s t text tagName h => .inr (.inl ⟨rfl, rfl⟩)
  | succ fuel ih =>
    intro s t text tagName h
    obtain ⟨b1, t1, hS1, hT1, h1⟩ := srcRel_hasNext h
    cases b1
    · exact .inr (.inr ⟨text, tagName, s, t1, by simp [closeTagLoop, hS1],
        by simp [closeTagLoop, hT1], h1⟩)
    · obtain ⟨b2, t2, hS2, hT2, h2⟩ := srcRel_peekMatches h1 ['>']
      cases b2
      · obtain ⟨r, s3, t3, hS3, hT3, h3⟩ := srcRel_next_char h2
        rcases r with _ | ⟨c⟩
        · exact .inl ⟨.assertFail, by simp [closeTagLoop, hS1, hS2, hS3],
            by simp [closeTagLoop, hT1, hT2, hT3]⟩
        · by_cases hc : (charIsAsciiAlphabetic c || charIsAsciiWhitespace c) = true
          · have := ih s3 t3 (text ++ [c]) (tagName ++ [c]) h3
            simpa [closeTagLoop, hS1, hT1, hS2, hT2, hS3, hT3, hc] using this
          · rw [Bool.not_eq_true] at hc
            exact .inl ⟨.assertFail, by simp [closeTagLoop, hS1, hS2, hS3, hc],
              by simp [closeTagLoop, hT1, hT2, hT3, hc]⟩
      · exact .inr (.inr ⟨text, tagName, s, t2, by simp [closeTagLoop, hS1, hS2],
          by simp [closeTagLoop, hT1, hT2], h2⟩)

theorem srcRel_textLoop (fuel : Nat) :
    ∀ (s : StringLexerState) (t : StreamLexerState) (text : List Char),
      SrcRel s t →
      LexOutRel (textLoop stringSource fuel s text)
        (textLoop streamSource fuel t text) := by
  induction fuel with
  | zero => exact fun s t text h => .inr (.inl ⟨rfl, rfl⟩)
  | succ fuel ih =>
    intro s t text h
    obtain ⟨b1, t1, hS1, hT1, h1⟩ := srcRel_hasNext h
    cases b1
    · exact .inr (.inr ⟨text, s, t1, by simp [textLoop, hS1],
        by simp [textLoop, hT1], h1⟩)
    · obtain ⟨b2, t2, hS2, hT2, h2⟩ := srcRel_peekMatches h1 ['<']
      cases b2
      · obtain ⟨r, s3, t3, hS3, hT3, h3⟩ := srcRel_next_char h2
        rcases r with _ | ⟨c⟩
        · exact .inl ⟨.assertFail, by simp [textLoop, hS1, hS2, hS3],
            by simp [textLoop, hT1, hT2, hT3]⟩
        · have := ih s3 t3 (text ++ [c]) h3
          simpa [textLoop, hS1, hT1, hS2, hT2, hS3, hT3] using this
      · exact .inr (.inr ⟨text, s, t2, by simp [textLoop, hS1, hS2],
          by simp [textLoop, hT1, hT2], h2⟩)

theorem srcRel_wsMunchLoop (fuel : Nat) :
    ∀ (s : StringLexerState) (t : StreamLexerState), SrcRel s t →
      LexOutRelSt (wsMunchLoop stringSource fuel s)
        (wsMunchLoop streamSource fuel t) := by
  induction fuel with
  | zero => exact fun s t h => .inr (.inl ⟨rfl, rfl⟩)
  | succ fuel ih =>
    intro s t h
    obtain ⟨r, t1, hS1, hT1, h1⟩ := srcRel_peek_char h
    rcases r with _ | ⟨c⟩
    · exact .inr (.inr ⟨s, t1, by simp [wsMunchLoop, hS1],
        by simp [wsMunchLoop, hT1], h1⟩)
    · by_cases hws : charIsWhitespace c = true
      · have hchop := srcRel_chopChar h1
        rcases hchop with ⟨r2, e1, e2⟩ | ⟨e1, e2⟩ | ⟨s2, t2, e1, e2, h2⟩
        · exact .inl ⟨r2, by simp [wsMunchLoop, hS1, hws, e1],
            by simp [wsMunchLoop, hT1, hws, e2]⟩
        · exact .inr (.inl ⟨by simp [wsMunchLoop, hS1, hws, e1],
            by simp [wsMunchLoop, hT1, hws, e2]⟩)
        · have := ih s2 t2 h2
          simpa [wsMunchLoop, hS1, hT1, hws, e1, e2] using this
      · exact .inr (.inr ⟨s, t1, by simp [wsMunchLoop, hS1, hws],
          by simp [wsMunchLoop, hT1, hws], h1⟩)

theorem stringSource_get_position (s : StringLexerState) :
    stringSource.get_position s = s.position := rfl

theorem streamSource_get_position (t : StreamLexerState) :
    streamSource.get_position t = t.position := rfl

theorem srcRel_expectDoctype (fuel : Nat) {s : StringLexerState}
    {t : StreamLexerState} (h : SrcRel s t) :
    LexOutRel (expectDoctype stringSource fuel s)
      (expectDoctype streamSource fuel t) := by
  have hpos0 : t.position = s.position := h.1
  obtain ⟨b1, t1, hS1, hT1, h1⟩ :=
    srcRel_peekMatchesIgnoreCase h ['<', '!', 'D', 'O', 'C', 'T', 'Y', 'P', 'E']
  cases b1
  · exact .inl ⟨.assertFail, by simp [expectDoctype, hS1], by simp [expectDoctype, hT1]⟩
  · have hN := srcRel_nextN 9 s t1 [] h1
    rcases hN with ⟨r, e1, e2⟩ | ⟨e1, e2⟩ | ⟨text, s2, t2, e1, e2, h2⟩
    · exact .inl ⟨r, by simp [expectDoctype, hS1, e1], by simp [expectDoctype, hT1, e2]⟩
    · exact .inr (.inl ⟨by simp [expectDoctype, hS1, e1], by simp [expectDoctype, hT1, e2]⟩)
    · obtain ⟨r3, t3, hS3, hT3, h3⟩ := srcRel_peek_char h2
      rcases r3 with _ | ⟨c⟩
      · exact .inl ⟨.assertFail, by simp [expectDoctype, hS1, e1, hS3],
          by simp [expectDoctype, hT1, e2, hT3]⟩
      · by_cases hc : c = ' '
        · obtain ⟨r4, s4, t4, hS4, hT4, h4⟩ := srcRel_next_char h3
          rcases r4 with _ | ⟨c4⟩
          · exact .inl ⟨.assertFail, by simp [expectDoctype, hS1, e1, hS3, hc, hS4],
              by simp [expectDoctype, hT1, e2, hT3, hc, hT4]⟩
          · have hL := srcRel_doctypeLoop fuel s4 t4 (text ++ [c4]) [] h4
            rcases hL with ⟨r5, f1, f2⟩ | ⟨f1, f2⟩ | ⟨text5, dt5, s5, t5, f1, f2, h5⟩
            · exact .inl ⟨r5, by simp [expectDoctype, hS1, e1, hS3, hc, hS4, f1],
                by simp [expectDoctype, hT1, e2, hT3, hc, hT4, f2]⟩
            · exact .inr (.inl ⟨by simp [expectDoctype, hS1, e1, hS3, hc, hS4, f1],
                by simp [expectDoctype, hT1, e2, hT3, hc, hT4, f2]⟩)
            · obtain ⟨r6, t6, hS6, hT6, h6⟩ := srcRel_peek_char h5
              rcases r6 with _ | ⟨c6⟩
              · exact .inl ⟨.assertFail,
                  by simp [expectDoctype, hS1, e1, hS3, hc, hS4, f1, hS6],
                  by simp [expectDoctype, hT1, e2, hT3, hc, hT4, f2, hT6]⟩
              · by_cases hc6 : c6 = '>'
                · obtain ⟨r7, s7, t7, hS7, hT7, h7⟩ := srcRel_next_char h6
                  rcases r7 with _ | ⟨c7⟩
                  · exact .inl ⟨.assertFail,
                      by simp [expectDoctype, hS1, e1, hS3, hc, hS4, f1, hS6, hc6, hS7],
                      by simp [expectDoctype, hT1, e2, hT3, hc, hT4, f2, hT6, hc6, hT7]⟩
                  · by_cases hd : (trimChars dt5).map charToAsciiLower = ['h', 't', 'm', 'l']
                    · refine .inr (.inr ⟨⟨.Doctype ((trimChars dt5).map charToAsciiLower),
                        text5 ++ [c7], ⟨s.position, s7.position⟩⟩, s7, t7, ?_, ?_, h7⟩)
                      · simp [expectDoctype, hS1, e1, hS3, hc, hS4, f1, hS6, hc6, hS7, hd,
                          stringSource_get_position]
                      · simp [expectDoctype, hT1, e2, hT3, hc, hT4, f2, hT6, hc6, hT7, hd,
                          hpos0, h7.1, streamSource_get_position]
                    · exact .inl ⟨.assertFail,
                        by simp [expectDoctype, hS1, e1, hS3, hc, hS4, f1, hS6, hc6, hS7, hd],
                        by simp [expectDoctype, hT1, e2, hT3, hc, hT4, f2, hT6, hc6, hT7, hd]⟩
                · exact .inl ⟨.assertFail,
                    by simp [expectDoctype, hS1, e1, hS3, hc, hS4, f1, hS6, hc6],
                    by simp [expectDoctype, hT1, e2, hT3, hc, hT4, f2, hT6, hc6]⟩
        · exact .inl ⟨.assertFail, by simp [expectDoctype, hS1, e1, hS3, hc],
            by simp [expectDoctype, hT1, e2, hT3, hc]⟩

theorem srcRel_expectComment (fuel : Nat) {s : StringLexerState}
    {t : StreamLexerState} (h : SrcRel s t) :
    LexOutRel (expectComment stringSource fuel s)
      (expectComment streamSource fuel t) := by
  have hpos0 : t.position = s.position := h.1
  obtain ⟨b1, t1, hS1, hT1, h1⟩ := srcRel_peekMatches h ['<', '!', '-', '-']
  cases b1
  · exact .inl ⟨.assertFail, by simp [expectComment, hS1], by simp [expectComment, hT1]⟩
  · have hN := srcRel_nextN 4 s t1 [] h1
    rcases hN with ⟨r, e1, e2⟩ | ⟨e1, e2⟩ | ⟨text, s2, t2, e1, e2, h2⟩
    · exact .inl ⟨r, by simp [expectComment, hS1, e1], by simp [expectComment, hT1, e2]⟩
    · exact .inr (.inl ⟨by simp [expectComment, hS1, e1], by simp [expectComment, hT1, e2]⟩)
    · have hL := srcRel_commentLoop fuel s2 t2 text [] h2
      rcases hL with ⟨r5, f1, f2⟩ | ⟨f1, f2⟩ | ⟨text5, cm5, s5, t5, f1, f2, h5⟩
      · exact .inl ⟨r5, by simp [expectComment, hS1, e1, f1],
          by simp [expectComment, hT1, e2, f2]⟩
      · exact .inr (.inl ⟨by simp [expectComment, hS1, e1, f1],
          by simp [expectComment, hT1, e2, f2]⟩)
      · obtain ⟨b6, t6, hS6, hT6, h6⟩ := srcRel_peekMatches h5 ['-', '-', '>']
        cases b6
        · exact .inl ⟨.assertFail, by simp [expectComment, hS1, e1, f1, hS6],
            by simp [expectComment, hT1, e2, f2, hT6]⟩
        · have hN2 := srcRel_nextN 3 s5 t6 text5 h6
          rcases hN2 with ⟨r7, g1, g2⟩ | ⟨g1, g2⟩ | ⟨text7, s7, t7, g1, g2, h7⟩
          · exact .inl ⟨r7, by simp [expectComment, hS1, e1, f1, hS6, g1],
              by simp [expectComment, hT1, e2, f2, hT6, g2]⟩
          · exact .inr (.inl ⟨by simp [expectComment, hS1, e1, f1, hS6, g1],
              by simp [expectComment, hT1, e2, f2, hT6, g2]⟩)
          · refine .inr (.inr ⟨⟨.Comment cm5, text7, ⟨s.position, s7.position⟩⟩,
              s7, t7, ?_, ?_, h7⟩)
            · simp [expectComment, hS1, e1, f1, hS6, g1, stringSource_get_position]
            · simp [expectComment, hT1, e2, f2, hT6, g2, hpos0, h7.1,
                streamSource_get_position]

theorem srcRel_expectCloseTag (fuel : Nat) {s : StringLexerState}
    {t : StreamLexerState} (h : SrcRel s t) :
    LexOutRel (expectCloseTag stringSource fuel s)
      (expectCloseTag streamSource fuel t) := by
  have hpos0 : t.position = s.position := h.1
  obtain ⟨b1, t1, hS1, hT1, h1⟩ := srcRel_peekMatches h ['<', '/']
  cases b1
  · exact .inl ⟨.assertFail, by simp [expectCloseTag, hS1], by simp [expectCloseTag, hT1]⟩
  · have hN := srcRel_nextN 2 s t1 [] h1
    rcases hN with ⟨r, e1, e2⟩ | ⟨e1, e2⟩ | ⟨text, s2, t2, e1, e2, h2⟩
    · exact .inl ⟨r, by simp [expectCloseTag, hS1, e1], by simp [expectCloseTag, hT1, e2]⟩
    · exact .inr (.inl ⟨by simp [expectCloseTag, hS1, e1],
        by simp [expectCloseTag, hT1, e2]⟩)
    · have hL := srcRel_closeTagLoop fuel s2 t2 text [] h2
      rcases hL with ⟨r5, f1, f2⟩ | ⟨f1, f2⟩ | ⟨text5, tag5, s5, t5, f1, f2, h5⟩
      · exact .inl ⟨r5, by simp [expectCloseTag, hS1, e1, f1],
          by simp [expectCloseTag, hT1, e2, f2]⟩
      · exact .inr (.inl ⟨by simp [expectCloseTag, hS1, e1, f1],
          by simp [expectCloseTag, hT1, e2, f2]⟩)
      · by_cases hl0 : tag5.length = 0
        · exact .inl ⟨.assertFail, by simp [expectCloseTag, hS1, e1, f1, hl0],
            by simp [expectCloseTag, hT1, e2, f2, hl0]⟩
        · by_cases hl1 : (trimChars tag5).length = 0
          · exact .inl ⟨.assertFail, by simp [expectCloseTag, hS1, e1, f1, hl0, hl1],
              by simp [expectCloseTag, hT1, e2, f2, hl0, hl1]⟩
          · by_cases hl2 : ∀ x ∈ trimChars tag5, charIsAsciiWhitespace x = false
            · obtain ⟨r6, t6, hS6, hT6, h6⟩ := srcRel_peek_char h5
              rcases r6 with _ | ⟨c6⟩
              · exact .inl ⟨.assertFail,
                  (by simp [expectCloseTag, hS1, e1, f1, hl0, hl1, hl2, hS6] <;> exact hl2),
                  (by simp [expectCloseTag, hT1, e2, f2, hl0, hl1, hl2, hT6] <;> exact hl2)⟩
              · by_cases hc6 : c6 = '>'
                · obtain ⟨r7, s7, t7, hS7, hT7, h7⟩ := srcRel_next_char h6
                  rcases r7 with _ | ⟨c7⟩
                  · exact .inl ⟨.assertFail,
                      (by simp [expectCloseTag, hS1, e1, f1, hl0, hl1, hl2, hS6, hc6, hS7] <;> exact hl2),
                      (by simp [expectCloseTag, hT1, e2, f2, hl0, hl1, hl2, hT6, hc6, hT7] <;> exact hl2)⟩
                  · refine .inr (.inr ⟨⟨.TagClose (trimChars tag5), text5 ++ [c7],
                      ⟨s.position, s7.position⟩⟩, s7, t7, ?_, ?_, h7⟩)
                    · simp [expectCloseTag, hS1, e1, f1, hl0, hl1, hl2, hS6, hc6, hS7,
                        stringSource_get_position] <;> exact hl2
                    · simp [expectCloseTag, hT1, e2, f2, hl0, hl1, hl2, hT6, hc6, hT7,
                        hpos0, h7.1, streamSource_get_position] <;> exact hl2
                · exact .inl ⟨.assertFail,
                    (by simp [expectCloseTag, hS1, e1, f1, hl0, hl1, hl2, hS6, hc6] <;> exact hl2),
                    (by simp [expectCloseTag, hT1, e2, f2, hl0, hl1, hl2, hT6, hc6] <;> exact hl2)⟩
            · exact .inl ⟨.assertFail, by simp [expectCloseTag, hS1, e1, f1, hl0, hl1, hl2],
                by simp [expectCloseTag, hT1, e2, f2, hl0, hl1, hl2]⟩

theorem srcRel_expectText (fuel : Nat) {s : StringLexerState}
    {t : StreamLexerState} (h : SrcRel s t) :
    LexOutRel (expectText stringSource fuel s)
      (expectText streamSource fuel t) := by
  have hpos0 : t.position = s.position := h.1
  have hL := srcRel_textLoop fuel s t [] h
  rcases hL with ⟨r5, f1, f2⟩ | ⟨f1, f2⟩ | ⟨text5, s5, t5, f1, f2, h5⟩
  · exact .inl ⟨r5, by simp [expectText, f1], by simp [expectText, f2]⟩
  · exact .inr (.inl ⟨by simp [expectText, f1], by simp [expectText, f2]⟩)
  · obtain ⟨r6, t6, hS6, hT6, h6⟩ := srcRel_peek_char h5
    rcases r6 with _ | ⟨c6⟩
    · exact .inl ⟨.assertFail, by simp [expectText, f1, hS6],
        by simp [expectText, f2, hT6]⟩
    · by_cases hc6 : c6 = '>'
      · refine .inr (.inr ⟨⟨.Text (trimChars text5), text5,
          ⟨s.position, s5.position⟩⟩, s5, t6, ?_, ?_, h6⟩)
        · simp [expectText, f1, hS6, hc6, stringSource_get_position]
        · simp [expectText, f2, hT6, hc6, hpos0, h6.1, streamSource_get_position]
      · exact .inl ⟨.assertFail, by simp [expectText, f1, hS6, hc6],
          by simp [expectText, f2, hT6, hc6]⟩

theorem srcRel_nextTokenLoop (fuel : Nat) :
    ∀ (s : StringLexerState) (t : StreamLexerState), SrcRel s t →
      LexOutRel (nextTokenLoop stringSource fuel s)
        (nextTokenLoop streamSource fuel t) := by
  induction fuel with
  | zero => exact fun s t h => .inr (.inl ⟨rfl, rfl⟩)
  | succ fuel ih =>
    intro s t h
    obtain ⟨b1, t1, hS1, hT1, h1⟩ := srcRel_hasNext h
    cases b1 with
    | false =>
      exact .inr (.inr ⟨none, s, t1, by simp [nextTokenLoop, hS1],
        by simp [nextTokenLoop, hT1], h1⟩)
    | true =>
      obtain ⟨b2, t2, hS2, hT2, h2⟩ := srcRel_peekMatches h1 ['<', '!', '-', '-']
      cases b2 with
      | true =>
        have hE := srcRel_expectComment fuel h2
        rcases hE with ⟨r, e1, e2⟩ | ⟨e1, e2⟩ | ⟨tok, s', t', e1, e2, h'⟩
        · exact .inl ⟨r, by simp [nextTokenLoop, hS1, hS2, e1],
            by simp [nextTokenLoop, hT1, hT2, e2]⟩
        · exact .inr (.inl ⟨by simp [nextTokenLoop, hS1, hS2, e1],
            by simp [nextTokenLoop, hT1, hT2, e2]⟩)
        · exact .inr (.inr ⟨some tok, s', t', by simp [nextTokenLoop, hS1, hS2, e1],
            by simp [nextTokenLoop, hT1, hT2, e2], h'⟩)
      | false =>
        obtain ⟨b3, t3, hS3, hT3, h3⟩ := srcRel_peekMatchesIgnoreCase h2
          ['<', '!', 'D', 'O', 'C', 'T', 'Y', 'P', 'E']
        cases b3 with
        | true =>
          have hE := srcRel_expectDoctype fuel h3
          rcases hE with ⟨r, e1, e2⟩ | ⟨e1, e2⟩ | ⟨tok, s', t', e1, e2, h'⟩
          · exact .inl ⟨r, by simp [nextTokenLoop, hS1, hS2, hS3, e1],
              by simp [nextTokenLoop, hT1, hT2, hT3, e2]⟩
          · exact .inr (.inl ⟨by simp [nextTokenLoop, hS1, hS2, hS3, e1],
              by simp [nextTokenLoop, hT1, hT2, hT3, e2]⟩)
          · exact .inr (.inr ⟨some tok, s', t',
              by simp [nextTokenLoop, hS1, hS2, hS3, e1],
              by simp [nextTokenLoop, hT1, hT2, hT3, e2], h'⟩)
        | false =>
          obtain ⟨b4, t4, hS4, hT4, h4⟩ := srcRel_peekMatches h3 ['<', '/']
          cases b4 with
          | true =>
            have hE := srcRel_expectCloseTag fuel h4
            rcases hE with ⟨r, e1, e2⟩ | ⟨e1, e2⟩ | ⟨tok, s', t', e1, e2, h'⟩
            · exact .inl ⟨r, by simp [nextTokenLoop, hS1, hS2, hS3, hS4, e1],
                by simp [nextTokenLoop, hT1, hT2, hT3, hT4, e2]⟩
            · exact .inr (.inl ⟨by simp [nextTokenLoop, hS1, hS2, hS3, hS4, e1],
                by simp [nextTokenLoop, hT1, hT2, hT3, hT4, e2]⟩)
            · exact .inr (.inr ⟨some tok, s', t',
                by simp [nextTokenLoop, hS1, hS2, hS3, hS4, e1],
                by simp [nextTokenLoop, hT1, hT2, hT3, hT4, e2], h'⟩)
          | false =>
            obtain ⟨b5, t5, hS5, hT5, h5⟩ := srcRel_peekMatches h4 ['<']
            cases b5 with
            | true =>
              exact .inl ⟨.todoOpenTag,
                by simp [nextTokenLoop, expectOpenOrSelfCloseTag, hS1, hS2, hS3, hS4, hS5],
                by simp [nextTokenLoop, expectOpenOrSelfCloseTag, hT1, hT2, hT3, hT4, hT5]⟩
            | false =>
              obtain ⟨r6, t6, hS6, hT6, h6⟩ := srcRel_peek_char h5
              rcases r6 with _ | ⟨c⟩
              · exact .inl ⟨.assertFail,
                  by simp [nextTokenLoop, hS1, hS2, hS3, hS4, hS5, hS6],
                  by simp [nextTokenLoop, hT1, hT2, hT3, hT4, hT5, hT6]⟩
              · by_cases hws : charIsWhitespace c = true
                · have hM := srcRel_wsMunchLoop (fuel + 1) s t6 h6
                  rcases hM with ⟨r, e1, e2⟩ | ⟨e1, e2⟩ | ⟨s7, t7, e1, e2, h7⟩
                  · exact .inl ⟨r,
                      by simp [nextTokenLoop, hS1, hS2, hS3, hS4, hS5, hS6, hws, e1],
                      by simp [nextTokenLoop, hT1, hT2, hT3, hT4, hT5, hT6, hws, e2]⟩
                  · exact .inr (.inl
                      ⟨by simp [nextTokenLoop, hS1, hS2, hS3, hS4, hS5, hS6, hws, e1],
                       by simp [nextTokenLoop, hT1, hT2, hT3, hT4, hT5, hT6, hws, e2]⟩)
                  · have := ih s7 t7 h7
                    simpa [nextTokenLoop, hS1, hT1, hS2, hT2, hS3, hT3, hS4, hT4,
                      hS5, hT5, hS6, hT6, hws, e1, e2] using this
                · have hE := srcRel_expectText fuel h6
                  rcases hE with ⟨r, e1, e2⟩ | ⟨e1, e2⟩ | ⟨tok, s', t', e1, e2, h'⟩
                  · exact .inl ⟨r,
                      by simp [nextTokenLoop, hS1, hS2, hS3, hS4, hS5, hS6, hws, e1],
                      by simp [nextTokenLoop, hT1, hT2, hT3, hT4, hT5, hT6, hws, e2]⟩
                  · exact .inr (.inl
                      ⟨by simp [nextTokenLoop, hS1, hS2, hS3, hS4, hS5, hS6, hws, e1],
                       by simp [nextTokenLoop, hT1, hT2, hT3, hT4, hT5, hT6, hws, e2]⟩)
                  · exact .inr (.inr ⟨some tok, s', t',
                      by simp [nextTokenLoop, hS1, hS2, hS3, hS4, hS5, hS6, hws, e1],
                      by simp [nextTokenLoop, hT1, hT2, hT3, hT4, hT5, hT6, hws, e2], h'⟩)

theorem srcRel_nextToken (fuel : Nat) {s : StringLexerState}
    {t : StreamLexerState} (h : SrcRel s t) :
    LexOutRel (nextToken stringSource fuel s) (nextToken streamSource fuel t) := by
  obtain ⟨r, t1, hS1, hT1, h1⟩ := srcRel_peek_char h
  rcases r with _ | ⟨c⟩
  · refine .inr (.inr ⟨some ⟨.Eof, [], ⟨s.position, s.position⟩⟩, s, t1, ?_, ?_, h1⟩)
    · simp [nextToken, hS1, stringSource_get_position]
    · simp [nextToken, hT1, streamSource_get_position, h1.1]
  · have := srcRel_nextTokenLoop fuel s t1 h1
    simpa [nextToken, hS1, hT1] using this

theorem srcRel_tokensN (k : Nat) :
    ∀ (fuel : Nat) (s : StringLexerState) (t : StreamLexerState), SrcRel s t →
      tokensN stringSource fuel k s = tokensN streamSource fuel k t := by
  induction k with
  | zero => intro fuel s t h; rfl
  | succ k ih =>
    intro fuel s t h
    have hN := srcRel_nextToken fuel h
    rcases hN with ⟨r, e1, e2⟩ | ⟨e1, e2⟩ | ⟨v, s', t', e1, e2, h'⟩
    · simp [tokensN, e1, e2]
    · simp [tokensN, e1, e2]
    · simp [tokensN, e1, e2, ih fuel s' t' h']

theorem ascii_utf8EncodeChars (input : List Char)
    (hascii : ∀ c ∈ input, c.toNat < 0x80) :
    utf8EncodeChars input = input.map Char.toNat := by
  induction input with
  | nil => rfl
  | cons c cs ih =>
    have hc : c.toNat < 0x80 := hascii c (List.mem_cons_self c cs)
    have hcs : ∀ x ∈ cs, x.toNat < 0x80 := fun x hx => hascii x (List.mem_cons_of_mem c hx)
    simp [utf8EncodeChars, utf8Encode, hc, ih hcs]
    simpa [utf8EncodeChars] using ih hcs

/-- Claim C10 (amended): for every character sequence consisting solely of
ASCII characters, tokenizing with `StringLexer` and tokenizing with
`StreamLexer` over the corresponding (UTF-8) byte stream produce
identical `next_token` result sequences, for every fuel bound and every
number of calls. -/
theorem C10_ascii_lexers_agree (input : List Char)
    (hascii : ∀ c ∈ input, c.toNat < 0x80) (fuel k : Nat) :
    tokensN stringSource fuel k ⟨input, 0⟩ =
      tokensN streamSource fuel k ⟨[], utf8EncodeChars input, 0⟩ := by
  apply srcRel_tokensN
  refine ⟨rfl, ?_⟩
  simp only [ascii_utf8EncodeChars input hascii]
  simp only [List.drop_zero, List.nil_append, List.map_map]
  have : Char.ofNat ∘ Char.toNat = id := funext Char.ofNat_toNat
  simp [this]

/-- Witness for C10: a comment with trailing whitespace, lexed to the same
three results by both implementations. -/
theorem C10_ascii_lexers_agree_witness :
    tokensN stringSource 50 3 ⟨"<!--Hi--> ".toList, 0⟩ =
      tokensN streamSource 50 3 ⟨[], utf8EncodeChars "<!--Hi--> ".toList, 0⟩ :=
  C10_ascii_lexers_agree ("<!--Hi--> ".toList) (by decide) 50 3
